import Mathlib

/-!
# Workq server (`int/server/server.go`)

A shallow embedding of the command router, the per-connection dispatch loop
(`clientLoop`), the accept loop (`ListenAndServe`) and `Stop`.

Conventions of the embedding:

* The external collaborators (`prot.Interface`, the handlers, `net`, the
  client transport) are not part of the file that is modelled.  Every value one
  of their calls returns is an input of the model: a `Round` carries what
  `ParseCmd`, `Exec`, `SendErr` and `SendReply` return in one pass through the
  loop body, and an `Action` carries what `net.Listen`, `Accept` and `Close`
  return.  Only returning calls are modelled.
* Calls made on collaborators are recorded as `Event`s, in program order.
* Goroutines are interleaved by a step function on a `World`: any number of
  calls of `ListenAndServe` and of `Stop` and any number of sessions may be under
  way, and every return is a step of its own.  A step that cannot be taken in
  the current state (a send on the full stop channel, a lock that is held) yields
  `none` until the state allows it.
* A panic of the server's own code (`Accept` called on a nil listener) stops the
  process: the world is marked crashed and takes no further step.
* `uint64` is a `Nat` reduced modulo `2 ^ 64`.
-/

namespace Workq

/-! ## Data model -/

/-- Go byte slice. -/
abbrev Bytes := List Nat

/-- A Go `error` value that is not nil: `ref` stands for the identity that `==`
compares, `msg` is what `Error()` returns. -/
structure GoError where
  ref : Nat
  msg : String
deriving DecidableEq, Repr

/-- Modelled from the spec: `prot.Cmd`, declared in package `prot`; the server
reads only `Name`, the rest of the command is carried along untouched. -/
structure Cmd where
  Name : String
  Args : List String
deriving DecidableEq, Repr

/-- A Go map from command name to handler; `none` is the nil map.  Lookup takes
the first binding of a key. -/
abbrev HandlerMap (H : Type) := Option (List (String × H))

/-- The Go expression `m[k]` in its two-result form. -/
def HandlerMap.get {H : Type} (m : HandlerMap H) (k : String) : Option H :=
  match m with
  | none => none
  | some kvs => kvs.lookup k

/-- Whether `k` is a key of the map. -/
def HandlerMap.hasKey {H : Type} (m : HandlerMap H) (k : String) : Bool :=
  match m with
  | none => false
  | some kvs => kvs.any (fun kv => k == kv.1)

/-- The struct `CmdRouter`. -/
structure CmdRouter (H : Type) where
  Handlers : HandlerMap H
  UnknownHandler : H

/-- The method `(*CmdRouter).Handler`: the handler returned, and the router as
the call leaves it. -/
def CmdRouter.Handler {H : Type} (c : CmdRouter H) (cmd : String) : H × CmdRouter H :=
  match c.Handlers.get cmd with
  | some h => (h, c)
  | none => (c.UnknownHandler, c)

/-- A `CmdRouter` behind the interface `Router`. -/
def CmdRouter.asRouter {H : Type} (c : CmdRouter H) : String → H :=
  fun cmd => (c.Handler cmd).1

/-- A `net.Listener` held by the server. -/
structure Listener where
  fd : Nat
  closed : Bool
deriving DecidableEq, Repr

/-- The struct `Stats`; `Started = none` is the zero `time.Time`. -/
structure Stats where
  ActiveClients : Nat
  Started : Option Nat
deriving DecidableEq, Repr

/-- Capacity of the channel made by `make(chan struct{}, 1)`. -/
def stopCap : Nat := 1

/-- The struct `Server`.  `Router` is the interface value (its one method),
`stop` is the number of signals buffered in the stop channel, `ln = none` is the
nil listener.  The two mutexes are part of the interleaving (`World`). -/
structure Server (H P : Type) where
  Addr : String
  Router : String → H
  Prot : P
  ln : Option Listener
  stop : Nat
  stats : Stats

/-- The constructor `New`. -/
def New {H P : Type} (addr : String) (router : String → H) (protocol : P) : Server H P :=
  { Addr := addr, Router := router, Prot := protocol, ln := none, stop := 0,
    stats := { ActiveClients := 0, Started := none } }

/-! ## The connection dispatch loop -/

/-- Calls the dispatch loop makes, in program order. -/
inductive Event (H : Type) where
  | activeInc
  | activeDec
  | resetLimit
  | parseCmd
  | route (name : String)
  | exec (h : H) (cmd : Cmd)
  | sendErr (msg : String)
  | sendReply (reply : Bytes)
  | close
deriving DecidableEq, Repr

/-- What the collaborators return during one pass through the loop body. -/
structure Round (H : Type) where
  parseCmd : Except GoError Cmd
  exec : H → Cmd → Bytes × Option GoError
  sendErr : String → Option GoError
  sendReply : Bytes → Option GoError

/-- One pass through the body of the `for` loop of `clientLoop` (lines 128 to
161): the calls made, and whether the loop goes round again (`true`) or the
function returns (`false`). -/
def clientIter {H : Type} (ErrReadErr : GoError) (router : String → H) (r : Round H) :
    List (Event H) × Bool :=
  match r.parseCmd with
  | .error err =>
    if err = ErrReadErr then
      ([.resetLimit, .parseCmd, .close], false)
    else
      match r.sendErr err.msg with
      | some _ => ([.resetLimit, .parseCmd, .sendErr err.msg, .close], false)
      | none => ([.resetLimit, .parseCmd, .sendErr err.msg], true)
  | .ok cmd =>
    let handler := router cmd.Name
    match r.exec handler cmd with
    | (_, some err) =>
      match r.sendErr err.msg with
      | some _ =>
        ([.resetLimit, .parseCmd, .route cmd.Name, .exec handler cmd, .sendErr err.msg, .close],
          false)
      | none =>
        ([.resetLimit, .parseCmd, .route cmd.Name, .exec handler cmd, .sendErr err.msg], true)
    | (reply, none) =>
      match r.sendReply reply with
      | some _ =>
        ([.resetLimit, .parseCmd, .route cmd.Name, .exec handler cmd, .sendReply reply, .close],
          false)
      | none =>
        ([.resetLimit, .parseCmd, .route cmd.Name, .exec handler cmd, .sendReply reply], true)

/-- Outcome of running a loop against a finite script: the calls made, and
whether the function has returned (`false`: the script ran out with the loop
still at the top of its body). -/
structure LoopResult (H : Type) where
  trace : List (Event H)
  exited : Bool

/-- The `for` loop of `clientLoop` run against the script. -/
def clientBody {H : Type} (ErrReadErr : GoError) (router : String → H) :
    List (Round H) → LoopResult H
  | [] => { trace := [], exited := false }
  | r :: rest =>
    let it := clientIter ErrReadErr router r
    if it.2 then
      let res := clientBody ErrReadErr router rest
      { trace := it.1 ++ res.trace, exited := res.exited }
    else
      { trace := it.1, exited := true }

/-- The method `(*Server).clientLoop`: the counter is incremented on entry, the
loop runs, and the deferred function decrements the counter when it returns. -/
def clientLoop {H P : Type} (ErrReadErr : GoError) (s : Server H P) (script : List (Round H)) :
    LoopResult H :=
  let res := clientBody ErrReadErr s.Router script
  { trace := Event.activeInc :: res.trace ++ (if res.exited then [Event.activeDec] else []),
    exited := res.exited }

/-- The rounds of a script the loop gets to: up to and including the first one
in which the function returns. -/
def processed {H : Type} (ErrReadErr : GoError) (router : String → H) :
    List (Round H) → List (Round H)
  | [] => []
  | r :: rest =>
    if (clientIter ErrReadErr router r).2 then r :: processed ErrReadErr router rest else [r]

/-- Whether the event is a write to the client. -/
def Event.isSend {H : Type} : Event H → Bool
  | .sendErr _ => true
  | .sendReply _ => true
  | _ => false

/-- The write a round calls for, by the outcome of decoding and of the handler:
none for the read error, the error reply for any other decode error or for a
handler error, the success reply otherwise. -/
def replyOf {H : Type} (ErrReadErr : GoError) (router : String → H) (r : Round H) :
    Option (Event H) :=
  match r.parseCmd with
  | .error err => if err = ErrReadErr then none else some (.sendErr err.msg)
  | .ok cmd =>
    match r.exec (router cmd.Name) cmd with
    | (_, some err) => some (.sendErr err.msg)
    | (reply, none) => some (.sendReply reply)

/-- What the write `e` returns in round `r`. -/
def Round.sendResult {H : Type} (r : Round H) : Event H → Option GoError
  | .sendErr msg => r.sendErr msg
  | .sendReply reply => r.sendReply reply
  | _ => none

/-- Whether the event is the close of the session. -/
def Event.isClose {H : Type} : Event H → Bool
  | .close => true
  | _ => false

/-- The close that follows a failed write. -/
def closeAfter {H : Type} (res : Option GoError) : List (Event H) :=
  match res with
  | some _ => [.close]
  | none => []

/-! ## The server: accept loop, Stop and sessions, interleaved -/

/-- Lines 63 to 69 of `ListenAndServe`: `s.ln` receives what `net.Listen`
returns (a fresh open listener, or nil together with the error). -/
def Server.listen {H P : Type} (s : Server H P) (r : Except GoError Nat) :
    Server H P × Option GoError :=
  match r with
  | .ok fd => ({ s with ln := some { fd := fd, closed := false } }, none)
  | .error e => ({ s with ln := none }, some e)

/-- Lines 71 to 73 of `ListenAndServe`. -/
def Server.recordStart {H P : Type} (s : Server H P) (now : Nat) : Server H P :=
  { s with stats := { s.stats with Started := some now } }

/-- The receive case of the `select` of `ListenAndServe` (line 77): taken when a
signal is buffered, which it consumes; `none` when the channel is empty. -/
def Server.recvStop {H P : Type} (s : Server H P) : Option (Server H P) :=
  if 0 < s.stop then some { s with stop := s.stop - 1 } else none

/-- Line 97 of `Stop`, the send on the stop channel: `none` while the buffer is
full and the send waits. -/
def Server.sendStop {H P : Type} (s : Server H P) : Option (Server H P) :=
  if s.stop < stopCap then some { s with stop := s.stop + 1 } else none

/-- Lines 98 to 102 of `Stop`: a listener that exists is closed and the result of
`Close` is the value to return, otherwise the value to return is nil. -/
def Server.closeListener {H P : Type} (s : Server H P) (closeRes : Option GoError) :
    Server H P × Option GoError :=
  match s.ln with
  | some l => ({ s with ln := some { l with closed := true } }, closeRes)
  | none => (s, none)

/-- The method `(*Server).Stop` at the level of the struct, run without any
other goroutine in between: `none` when the send finds the buffer full. -/
def Server.Stop {H P : Type} (s : Server H P) (closeRes : Option GoError) :
    Option (Server H P × Option GoError) :=
  match s.sendStop with
  | some s1 => some (s1.closeListener closeRes)
  | none => none

/-- Lines 113 to 115 of `clientLoop`: `s.stats.ActiveClients++` on a `uint64`. -/
def Stats.enter (st : Stats) : Stats :=
  { st with ActiveClients := (st.ActiveClients + 1) % 2 ^ 64 }

/-- Lines 117 to 121 of `clientLoop`: `s.stats.ActiveClients--` on a `uint64`. -/
def Stats.leave (st : Stats) : Stats :=
  { st with ActiveClients := (st.ActiveClients + 2 ^ 64 - 1) % 2 ^ 64 }

/-- Whether the event is the increment of the counter. -/
def Event.isInc {H : Type} : Event H → Bool
  | .activeInc => true
  | _ => false

/-- Whether the event is the decrement of the counter. -/
def Event.isDec {H : Type} : Event H → Bool
  | .activeDec => true
  | _ => false

/-- Effect of one call of a dispatch loop on the shared `Stats`. -/
def Event.onStats {H : Type} (e : Event H) (st : Stats) : Stats :=
  match e with
  | .activeInc => st.enter
  | .activeDec => st.leave
  | _ => st

/-- A goroutine started by `go func() { s.clientLoop(...) }()` for one accepted
connection: the calls it has made so far, the calls its run still has to make,
and whether that run ends with `clientLoop` returning (`false`: the run ends
parked in `ParseCmd`). -/
structure Session (H : Type) where
  conn : Nat
  done : List (Event H)
  todo : List (Event H)
  returns : Bool

/-- The goroutine has entered `clientLoop`: it has made its first move. -/
def Session.entered {H : Type} (x : Session H) : Bool := !x.done.isEmpty

/-- The function `clientLoop` has returned: the run is one that returns and
nothing of it is left to do. -/
def Session.exited {H : Type} (x : Session H) : Bool := x.returns && x.todo.isEmpty

/-- The session has entered and not yet exited. -/
def Session.live {H : Type} (x : Session H) : Bool := x.entered && !x.exited

/-- Control point of one call of `ListenAndServe`: past line 69 with the
listener bound, at the `select`, inside `Accept`, about to return `err` (line 68
or line 78), or returned. -/
inductive LasPc where
  | bound
  | atSelect
  | inAccept
  | returning (err : Option GoError)
  | returned
deriving DecidableEq, Repr

/-- Control point of the goroutine that holds `mu` inside `Stop`, if any: none,
before the send, after the send, or past the close with the value to return. -/
inductive StopPc where
  | idle
  | locked
  | sent
  | closed (err : Option GoError)
deriving DecidableEq, Repr

/-- A return of one of the two exported methods; calls of `ListenAndServe` are
numbered in the order in which they bind. -/
inductive Ret where
  | listenAndServe (call : Nat) (err : Option GoError)
  | stop (err : Option GoError)
deriving DecidableEq, Repr

/-- The server together with the goroutines working on it: one control point
per call of `ListenAndServe`, the holder of `mu`, the sessions.  `accepts`
counts the calls of `Accept`, `rets` logs the returns, `crashed` records a panic
of the process. -/
structure World (H P : Type) where
  srv : Server H P
  las : List LasPc
  stp : StopPc
  sessions : List (Session H)
  accepts : Nat
  rets : List Ret
  crashed : Bool

/-- A server on which no method has been called yet. -/
def World.init {H P : Type} (s : Server H P) : World H P :=
  { srv := s, las := [], stp := .idle, sessions := [], accepts := 0, rets := [],
    crashed := false }

/-- One atomic step of one goroutine, with what the environment returns. -/
inductive Action (H : Type) where
  | lasCall (listenRes : Except GoError Nat)
  | lasStart (call : Nat) (now : Nat)
  | lasSelect (call : Nat)
  | lasAccept (call : Nat) (acceptRes : Except GoError (Nat × List (Round H)))
  | lasReturn (call : Nat)
  | stopCall
  | stopSend
  | stopClose (closeRes : Option GoError)
  | stopReturn
  | sessStep (i : Nat)

/-- The step function of the running process.

* `lasCall`: a call of `ListenAndServe` takes `mu` and runs lines 63 to 67,
  whatever other calls of it are under way.
* `lasStart`: lines 71 to 73.
* `lasSelect`: the `select` of lines 76 to 80: a buffered signal is received;
  otherwise `s.ln.Accept()` is called, which panics on a nil `s.ln`.
* `lasAccept`: `Accept` returns (lines 80 to 87); an accepted connection is
  handed to a new goroutine running `clientLoop`, whose collaborators will
  return what the script says; an error breaks out of the `select` only.
* `lasReturn`: the `return` of line 68 or line 78.
* `stopCall`, `stopSend`, `stopClose`, `stopReturn`: `Stop` takes `mu` (line
  94), sends (line 97), closes the listener (lines 98 and 99), returns and
  releases `mu` (lines 99 to 102 and the deferred unlock).
* `sessStep i`: session `i` makes its next call. -/
def stepLive {H P : Type} (ErrReadErr : GoError) (w : World H P) :
    Action H → Option (World H P)
  | .lasCall listenRes =>
    if w.stp = .idle then
      match w.srv.listen listenRes with
      | (s, some e) => some { w with srv := s, las := w.las ++ [.returning (some e)] }
      | (s, none) => some { w with srv := s, las := w.las ++ [.bound] }
    else none
  | .lasStart i now =>
    if w.las[i]? = some .bound then
      some { w with srv := w.srv.recordStart now, las := w.las.set i .atSelect }
    else none
  | .lasSelect i =>
    if w.las[i]? = some .atSelect then
      match w.srv.recvStop with
      | some s => some { w with srv := s, las := w.las.set i (.returning none) }
      | none =>
        match w.srv.ln with
        | some _ => some { w with las := w.las.set i .inAccept, accepts := w.accepts + 1 }
        | none => some { w with crashed := true }
    else none
  | .lasAccept i acceptRes =>
    if w.las[i]? = some .inAccept then
      match acceptRes with
      | .error _ => some { w with las := w.las.set i .atSelect }
      | .ok (conn, script) =>
        some { w with
          las := w.las.set i .atSelect
          sessions := w.sessions ++
            [{ conn := conn, done := [], todo := (clientLoop ErrReadErr w.srv script).trace,
               returns := (clientLoop ErrReadErr w.srv script).exited }] }
    else none
  | .lasReturn i =>
    match w.las[i]? with
    | some (.returning e) =>
      some { w with las := w.las.set i .returned, rets := w.rets ++ [.listenAndServe i e] }
    | _ => none
  | .stopCall =>
    if w.stp = .idle then some { w with stp := .locked } else none
  | .stopSend =>
    if w.stp = .locked then
      match w.srv.sendStop with
      | some s => some { w with srv := s, stp := .sent }
      | none => none
    else none
  | .stopClose closeRes =>
    if w.stp = .sent then
      some { w with srv := (w.srv.closeListener closeRes).1,
                    stp := .closed (w.srv.closeListener closeRes).2 }
    else none
  | .stopReturn =>
    match w.stp with
    | .closed e => some { w with stp := .idle, rets := w.rets ++ [.stop e] }
    | _ => none
  | .sessStep i =>
    match w.sessions[i]? with
    | some x =>
      match x.todo with
      | e :: rest =>
        some { w with
          srv := { w.srv with stats := e.onStats w.srv.stats }
          sessions := w.sessions.set i { x with done := x.done ++ [e], todo := rest } }
      | [] => none
    | none => none

/-- A step of the process: one of `stepLive` as long as it has not panicked. A
step that cannot be taken yet (a lock that is held, a send on the full stop
channel, a goroutine that is elsewhere) yields `none`. -/
def step {H P : Type} (ErrReadErr : GoError) (w : World H P) (a : Action H) :
    Option (World H P) :=
  if w.crashed then none else stepLive ErrReadErr w a

/-- A sequence of steps; `none` when one of them cannot be taken. -/
def run {H P : Type} (ErrReadErr : GoError) (w : World H P) : List (Action H) → Option (World H P)
  | [] => some w
  | a :: rest =>
    match step ErrReadErr w a with
    | some w1 => run ErrReadErr w1 rest
    | none => none

/-- A call of `Stop` that no other goroutine interleaves with: the world it
leaves and the error it returns; `none` when it cannot run to its end that
way. -/
def Stop {H P : Type} (w : World H P) (closeRes : Option GoError) :
    Option (World H P × Option GoError) :=
  if w.crashed = false ∧ w.stp = .idle then
    match w.srv.Stop closeRes with
    | some (s, e) => some ({ w with srv := s, rets := w.rets ++ [.stop e] }, e)
    | none => none
  else none

/-- The server holds a listener that is open. -/
def World.listenerOpen {H P : Type} (w : World H P) : Bool :=
  match w.srv.ln with
  | some l => !l.closed
  | none => false

/-- The server holds a listener that has been closed. -/
def World.listenerClosed {H P : Type} (w : World H P) : Bool :=
  match w.srv.ln with
  | some l => l.closed
  | none => false

/-- Number of sessions that have entered and not yet exited. -/
def World.liveCount {H P : Type} (w : World H P) : Nat := w.sessions.countP Session.live

/-- The action is a call of `ListenAndServe` whose bind succeeds. -/
def Action.isBind {H : Type} : Action H → Bool
  | .lasCall (.ok _) => true
  | _ => false

/-- The action is a step of call `i` of `ListenAndServe` past its bind: the
recording of the start time, the `select`, or the return of `Accept`. -/
def Action.isLoopStepOf {H : Type} (i : Nat) : Action H → Bool
  | .lasStart j _ => j == i
  | .lasSelect j => j == i
  | .lasAccept j _ => j == i
  | _ => false

/-- What the frame of `Stop` promises between two worlds: the address, the
router, the protocol, the stats, the sessions, the calls of `ListenAndServe`
and the count of accepts are the same. -/
def World.sameButStopAndListener {H P : Type} (w w1 : World H P) : Prop :=
  w1.srv.Addr = w.srv.Addr ∧ w1.srv.Router = w.srv.Router ∧ w1.srv.Prot = w.srv.Prot ∧
  w1.srv.stats = w.srv.stats ∧ w1.sessions = w.sessions ∧ w1.las = w.las ∧
  w1.accepts = w.accepts ∧ w1.crashed = w.crashed

/-- Invariant of the worlds reached from a new server `s0`: the router is the
one `s0` was built with, every session is a goroutine part-way through a run of
`clientLoop`, and the counter is the number of live sessions as a `uint64`. -/
def World.inv {H P : Type} (ErrReadErr : GoError) (s0 : Server H P) (w : World H P) : Prop :=
  w.srv.Router = s0.Router ∧
  (∀ x ∈ w.sessions, ∃ script,
    x.done ++ x.todo = (clientLoop ErrReadErr s0 script).trace ∧
    x.returns = (clientLoop ErrReadErr s0 script).exited) ∧
  w.srv.stats.ActiveClients = w.liveCount % 2 ^ 64

/-! ## The router -/

theorem HandlerMap.get_of_hasKey {H : Type} (m : HandlerMap H) (k : String)
    (hk : m.hasKey k = true) :
    ∃ kvs h, m = some kvs ∧ (k, h) ∈ kvs ∧ m.get k = some h := by
  cases m with
  | none => simp [HandlerMap.hasKey] at hk
  | some kvs =>
    refine ⟨kvs, ?_⟩
    simp only [HandlerMap.hasKey] at hk
    simp only [HandlerMap.get, Option.some.injEq, true_and]
    induction kvs with
    | nil => simp at hk
    | cons kv rest ih =>
      obtain ⟨a, b⟩ := kv
      by_cases hab : k == a
      · refine ⟨b, ?_, ?_⟩
        · have : k = a := by simpa using hab
          simp [this]
        · simp [List.lookup, hab]
      · have hrest : rest.any (fun kv => k == kv.1) = true := by
          simpa [List.any_cons, hab] using hk
        obtain ⟨h, hm, hl⟩ := ih hrest
        refine ⟨h, List.mem_cons_of_mem _ hm, ?_⟩
        simp [List.lookup, hab, hl]

theorem HandlerMap.get_of_not_hasKey {H : Type} (m : HandlerMap H) (k : String)
    (hk : m.hasKey k = false) : m.get k = none := by
  cases m with
  | none => rfl
  | some kvs =>
    simp only [HandlerMap.hasKey] at hk
    simp only [HandlerMap.get]
    induction kvs with
    | nil => rfl
    | cons kv rest ih =>
      obtain ⟨a, b⟩ := kv
      by_cases hab : k == a
      · simp [List.any_cons, hab] at hk
      · have hrest : rest.any (fun kv => k == kv.1) = false := by
          simpa [List.any_cons, hab] using hk
        simp [List.lookup, hab, ih hrest]

/-- C1: `CmdRouter.Handler` is total; for a name that is a key of `Handlers` it
returns the handler the map binds to that name, for a name that is not a key
(in particular when the map is nil or empty) it returns `UnknownHandler`; the
router is the same after the call. -/
theorem handler_lookup {H : Type} (r : CmdRouter H) (n : String) :
    (r.Handler n).2 = r ∧
    (r.Handlers.hasKey n = true →
      ∃ kvs h, r.Handlers = some kvs ∧ (n, h) ∈ kvs ∧ r.Handlers.get n = some h ∧
        (r.Handler n).1 = h) ∧
    (r.Handlers.hasKey n = false → (r.Handler n).1 = r.UnknownHandler) ∧
    (r.Handlers = none ∨ r.Handlers = some [] →
      r.Handlers.hasKey n = false ∧ (r.Handler n).1 = r.UnknownHandler) := by
  have hframe : (r.Handler n).2 = r := by
    unfold CmdRouter.Handler
    split <;> rfl
  have hmiss : r.Handlers.hasKey n = false → (r.Handler n).1 = r.UnknownHandler := by
    intro hk
    unfold CmdRouter.Handler
    rw [HandlerMap.get_of_not_hasKey _ _ hk]
  refine ⟨hframe, ?_, hmiss, ?_⟩
  · intro hk
    obtain ⟨kvs, h, hm, hmem, hget⟩ := HandlerMap.get_of_hasKey _ _ hk
    refine ⟨kvs, h, hm, hmem, hget, ?_⟩
    unfold CmdRouter.Handler
    rw [hget]
  · intro hm
    have hk : r.Handlers.hasKey n = false := by
      rcases hm with hm | hm <;> simp [hm, HandlerMap.hasKey]
    exact ⟨hk, hmiss hk⟩

/-- Witness of C1: a router binding `PING`, asked for `PING` and for `FOO`. -/
theorem handler_lookup_witness :
    (CmdRouter.Handler ⟨some [("PING", 7)], 0⟩ "PING").1 = 7 ∧
    (CmdRouter.Handler ⟨some [("PING", 7)], 0⟩ "FOO").1 = 0 ∧
    (CmdRouter.Handler (⟨none, 0⟩ : CmdRouter Nat) "PING").1 = 0 := by
  refine ⟨?_, ?_, ?_⟩
  · obtain ⟨kvs, h, _, _, hget, hh⟩ :=
      (handler_lookup ⟨some [("PING", 7)], 0⟩ "PING").2.1 (by decide)
    rw [hh]
    have : HandlerMap.get (some [("PING", 7)]) "PING" = some 7 := by decide
    rw [this] at hget
    exact (Option.some.inj hget).symm
  · exact (handler_lookup ⟨some [("PING", 7)], 0⟩ "FOO").2.2.1 (by decide)
  · exact ((handler_lookup (⟨none, 0⟩ : CmdRouter Nat) "PING").2.2.2 (Or.inl rfl)).2

/-! ## One pass through the loop body -/

theorem clientIter_readErr {H : Type} (E : GoError) (router : String → H) (r : Round H)
    (hp : r.parseCmd = .error E) :
    clientIter E router r = ([.resetLimit, .parseCmd, .close], false) := by
  simp [clientIter, hp]

theorem clientIter_decodeErr {H : Type} (E : GoError) (router : String → H) (r : Round H)
    (err : GoError) (hp : r.parseCmd = .error err) (hne : err ≠ E) :
    clientIter E router r =
      ([.resetLimit, .parseCmd, .sendErr err.msg] ++ closeAfter (r.sendErr err.msg),
        (r.sendErr err.msg).isNone) := by
  simp only [clientIter, hp, hne, if_false]
  cases r.sendErr err.msg <;> simp [closeAfter]

theorem clientIter_handlerErr {H : Type} (E : GoError) (router : String → H) (r : Round H)
    (cmd : Cmd) (b : Bytes) (err : GoError) (hp : r.parseCmd = .ok cmd)
    (hx : r.exec (router cmd.Name) cmd = (b, some err)) :
    clientIter E router r =
      ([.resetLimit, .parseCmd, .route cmd.Name, .exec (router cmd.Name) cmd, .sendErr err.msg]
          ++ closeAfter (r.sendErr err.msg),
        (r.sendErr err.msg).isNone) := by
  simp only [clientIter, hp, hx]
  cases r.sendErr err.msg <;> simp [closeAfter]

theorem clientIter_success {H : Type} (E : GoError) (router : String → H) (r : Round H)
    (cmd : Cmd) (reply : Bytes) (hp : r.parseCmd = .ok cmd)
    (hx : r.exec (router cmd.Name) cmd = (reply, none)) :
    clientIter E router r =
      ([.resetLimit, .parseCmd, .route cmd.Name, .exec (router cmd.Name) cmd, .sendReply reply]
          ++ closeAfter (r.sendReply reply),
        (r.sendReply reply).isNone) := by
  simp only [clientIter, hp, hx]
  cases r.sendReply reply <;> simp [closeAfter]

theorem clientBody_cons_exit {H : Type} (E : GoError) (router : String → H) (r : Round H)
    (rest : List (Round H)) (h : (clientIter E router r).2 = false) :
    clientBody E router (r :: rest) = { trace := (clientIter E router r).1, exited := true } := by
  simp [clientBody, h]

theorem clientBody_cons_continue {H : Type} (E : GoError) (router : String → H) (r : Round H)
    (rest : List (Round H)) (h : (clientIter E router r).2 = true) :
    clientBody E router (r :: rest) =
      { trace := (clientIter E router r).1 ++ (clientBody E router rest).trace,
        exited := (clientBody E router rest).exited } := by
  simp [clientBody, h]

/-- C2: in a pass in which `ParseCmd` decodes a command whose name the router
binds to handler `h`, and `h.Exec` returns `(reply, nil)`, the handler routed to
and executed is `h` and no other, the one write is `SendReply` with `reply`
unchanged, and `SendErr` is not called. -/
theorem registered_success_reply {H : Type} (E : GoError) (c : CmdRouter H) (r : Round H)
    (cmd : Cmd) (h : H) (reply : Bytes)
    (hp : r.parseCmd = .ok cmd)
    (hreg : c.Handlers.hasKey cmd.Name = true ∧ c.Handlers.get cmd.Name = some h)
    (hx : r.exec h cmd = (reply, none)) :
    (clientIter E c.asRouter r).1 =
      [.resetLimit, .parseCmd, .route cmd.Name, .exec h cmd, .sendReply reply]
        ++ closeAfter (r.sendReply reply) ∧
    (clientIter E c.asRouter r).1.filter Event.isSend = [.sendReply reply] ∧
    (∀ msg, Event.sendErr msg ∉ (clientIter E c.asRouter r).1) ∧
    (∀ h1 c1, Event.exec h1 c1 ∈ (clientIter E c.asRouter r).1 → h1 = h ∧ c1 = cmd) := by
  have hr : c.asRouter cmd.Name = h := by
    simp [CmdRouter.asRouter, CmdRouter.Handler, hreg.2]
  have hit := clientIter_success E c.asRouter r cmd reply hp (by rw [hr]; exact hx)
  rw [hr] at hit
  rw [hit]
  cases r.sendReply reply <;> simp [closeAfter, Event.isSend]

/-- Witness of C2: `PING` bound to handler 7, which answers `PONG`. -/
theorem registered_success_reply_witness :
    (clientIter ⟨0, "read"⟩ (CmdRouter.asRouter ⟨some [("PING", 7)], 0⟩)
        ⟨.ok ⟨"PING", []⟩, fun _ _ => ([80, 79, 78, 71], none), fun _ => none,
          fun _ => none⟩).1.filter Event.isSend
      = [.sendReply [80, 79, 78, 71]] :=
  (registered_success_reply ⟨0, "read"⟩ ⟨some [("PING", 7)], 0⟩
    ⟨.ok ⟨"PING", []⟩, fun _ _ => ([80, 79, 78, 71], none), fun _ => none, fun _ => none⟩
    ⟨"PING", []⟩ 7 [80, 79, 78, 71] rfl ⟨by decide, by decide⟩ rfl).2.1

/-- C3: when `ParseCmd` fails with `prot.ErrReadErr` the pass closes the session
and the function returns: that pass makes no write and runs no handler, and
whatever the rest of the script holds, no further call follows (no decode, no
handler, no write), only the deferred decrement. -/
theorem read_error_closes_silently {H P : Type} (E : GoError) (s : Server H P) (r : Round H)
    (rest : List (Round H)) (hp : r.parseCmd = .error E) :
    clientIter E s.Router r = ([.resetLimit, .parseCmd, .close], false) ∧
    clientBody E s.Router (r :: rest) =
      { trace := [.resetLimit, .parseCmd, .close], exited := true } ∧
    (clientLoop E s (r :: rest)).trace =
      [.activeInc, .resetLimit, .parseCmd, .close, .activeDec] ∧
    (clientLoop E s (r :: rest)).exited = true := by
  have hit := clientIter_readErr E s.Router r hp
  have hb := clientBody_cons_exit E s.Router r rest (by rw [hit])
  rw [hit] at hb
  refine ⟨hit, hb, ?_, ?_⟩ <;> simp [clientLoop, hb]

/-- Witness of C3: a read error followed by a valid command that is never
decoded. -/
theorem read_error_closes_silently_witness :
    (clientLoop ⟨0, "read"⟩ (New "a" (fun _ => 7) ())
      [⟨.error ⟨0, "read"⟩, fun _ _ => ([], none), fun _ => none, fun _ => none⟩,
        ⟨.ok ⟨"PING", []⟩, fun _ _ => ([1], none), fun _ => none, fun _ => none⟩]).trace
      = [.activeInc, .resetLimit, .parseCmd, .close, .activeDec] :=
  (read_error_closes_silently ⟨0, "read"⟩ (New "a" (fun _ => 7) ())
    ⟨.error ⟨0, "read"⟩, fun _ _ => ([], none), fun _ => none, fun _ => none⟩
    [⟨.ok ⟨"PING", []⟩, fun _ _ => ([1], none), fun _ => none, fun _ => none⟩] rfl).2.2.1

/-- The four ways through the loop body. -/
theorem clientIter_cases {H : Type} (E : GoError) (router : String → H) (r : Round H) :
    (r.parseCmd = .error E ∧ replyOf E router r = none ∧
      clientIter E router r = ([.resetLimit, .parseCmd, .close], false)) ∨
    (∃ err, r.parseCmd = .error err ∧ err ≠ E ∧
      replyOf E router r = some (.sendErr err.msg) ∧
      clientIter E router r =
        ([.resetLimit, .parseCmd, .sendErr err.msg] ++ closeAfter (r.sendErr err.msg),
          (r.sendErr err.msg).isNone)) ∨
    (∃ cmd b err, r.parseCmd = .ok cmd ∧ r.exec (router cmd.Name) cmd = (b, some err) ∧
      replyOf E router r = some (.sendErr err.msg) ∧
      clientIter E router r =
        ([.resetLimit, .parseCmd, .route cmd.Name, .exec (router cmd.Name) cmd,
            .sendErr err.msg] ++ closeAfter (r.sendErr err.msg),
          (r.sendErr err.msg).isNone)) ∨
    (∃ cmd reply, r.parseCmd = .ok cmd ∧ r.exec (router cmd.Name) cmd = (reply, none) ∧
      replyOf E router r = some (.sendReply reply) ∧
      clientIter E router r =
        ([.resetLimit, .parseCmd, .route cmd.Name, .exec (router cmd.Name) cmd,
            .sendReply reply] ++ closeAfter (r.sendReply reply),
          (r.sendReply reply).isNone)) := by
  cases hp : r.parseCmd with
  | error err =>
    by_cases he : err = E
    · subst he
      exact Or.inl ⟨rfl, by simp [replyOf, hp], clientIter_readErr _ router r hp⟩
    · exact Or.inr (Or.inl ⟨err, rfl, he, by simp [replyOf, hp, he],
        clientIter_decodeErr E router r err hp he⟩)
  | ok cmd =>
    cases hx : r.exec (router cmd.Name) cmd with
    | mk b oe =>
      cases oe with
      | some err =>
        exact Or.inr (Or.inr (Or.inl ⟨cmd, b, err, rfl, hx, by simp [replyOf, hp, hx],
          clientIter_handlerErr E router r cmd b err hp hx⟩))
      | none =>
        exact Or.inr (Or.inr (Or.inr ⟨cmd, b, rfl, hx, by simp [replyOf, hp, hx],
          clientIter_success E router r cmd b hp hx⟩))

/-- C4: when `ParseCmd` fails with an error other than `prot.ErrReadErr`, the
pass issues exactly one `SendErr` carrying that error's message, routes to and
executes no handler and issues no `SendReply`; when that `SendErr` succeeds the
session is not closed and the loop goes on with the next decode, so that a
following valid command is routed, executed and answered. -/
theorem decode_error_one_reply {H : Type} (E : GoError) (router : String → H) (r : Round H)
    (err : GoError) (hp : r.parseCmd = .error err) (hne : err ≠ E) :
    (clientIter E router r).1 =
      [.resetLimit, .parseCmd, .sendErr err.msg] ++ closeAfter (r.sendErr err.msg) ∧
    (clientIter E router r).1.filter Event.isSend = [.sendErr err.msg] ∧
    (∀ h c, Event.exec h c ∉ (clientIter E router r).1) ∧
    (∀ n, Event.route n ∉ (clientIter E router r).1) ∧
    (∀ b, Event.sendReply b ∉ (clientIter E router r).1) ∧
    (r.sendErr err.msg = none →
      clientIter E router r = ([.resetLimit, .parseCmd, .sendErr err.msg], true) ∧
      (∀ rest, clientBody E router (r :: rest) =
        { trace := [.resetLimit, .parseCmd, .sendErr err.msg] ++ (clientBody E router rest).trace,
          exited := (clientBody E router rest).exited }) ∧
      (∀ r2 rest cmd reply, r2.parseCmd = .ok cmd →
        r2.exec (router cmd.Name) cmd = (reply, none) →
        List.IsPrefix
          [.resetLimit, .parseCmd, .sendErr err.msg, .resetLimit, .parseCmd, .route cmd.Name,
            .exec (router cmd.Name) cmd, .sendReply reply]
          (clientBody E router (r :: r2 :: rest)).trace)) := by
  have hit := clientIter_decodeErr E router r err hp hne
  refine ⟨by rw [hit], ?_, ?_, ?_, ?_, ?_⟩
  · rw [hit]; cases r.sendErr err.msg <;> simp [closeAfter, Event.isSend]
  · rw [hit]; cases r.sendErr err.msg <;> simp [closeAfter]
  · rw [hit]; cases r.sendErr err.msg <;> simp [closeAfter]
  · rw [hit]; cases r.sendErr err.msg <;> simp [closeAfter]
  · intro hs
    rw [hs] at hit
    simp only [closeAfter, List.append_nil, Option.isNone_none] at hit
    have hcons : ∀ rest, clientBody E router (r :: rest) =
        { trace := [.resetLimit, .parseCmd, .sendErr err.msg] ++ (clientBody E router rest).trace,
          exited := (clientBody E router rest).exited } := by
      intro rest
      have := clientBody_cons_continue E router r rest (by rw [hit])
      rw [hit] at this
      exact this
    refine ⟨hit, hcons, ?_⟩
    intro r2 rest cmd reply hp2 hx2
    have hit2 := clientIter_success E router r2 cmd reply hp2 hx2
    rw [hcons]
    cases hs2 : r2.sendReply reply with
    | none =>
      rw [hs2] at hit2
      have := clientBody_cons_continue E router r2 rest (by rw [hit2]; rfl)
      rw [this, hit2]
      simp [closeAfter, List.IsPrefix]
    | some g =>
      rw [hs2] at hit2
      have := clientBody_cons_exit E router r2 rest (by rw [hit2]; rfl)
      rw [this, hit2]
      simp [closeAfter, List.IsPrefix]

/-- Witness of C4: a syntax error answered, then `PING` answered on the same
connection. -/
theorem decode_error_one_reply_witness :
    (clientBody ⟨0, "read"⟩ (fun _ => (7 : Nat))
      [⟨.error ⟨1, "syntax"⟩, fun _ _ => ([], none), fun _ => none, fun _ => none⟩,
        ⟨.ok ⟨"PING", []⟩, fun _ _ => ([1], none), fun _ => none, fun _ => none⟩]) =
      { trace := [.resetLimit, .parseCmd, .sendErr "syntax"] ++
          (clientBody ⟨0, "read"⟩ (fun _ => (7 : Nat))
            [⟨.ok ⟨"PING", []⟩, fun _ _ => ([1], none), fun _ => none, fun _ => none⟩]).trace,
        exited := (clientBody ⟨0, "read"⟩ (fun _ => (7 : Nat))
            [⟨.ok ⟨"PING", []⟩, fun _ _ => ([1], none), fun _ => none, fun _ => none⟩]).exited } :=
  ((decode_error_one_reply ⟨0, "read"⟩ (fun _ => (7 : Nat))
    ⟨.error ⟨1, "syntax"⟩, fun _ _ => ([], none), fun _ => none, fun _ => none⟩
    ⟨1, "syntax"⟩ rfl (by decide)).2.2.2.2.2 rfl).2.1 _

/-! ## The whole loop -/

theorem clientIter_close_count {H : Type} (E : GoError) (router : String → H) (r : Round H) :
    (clientIter E router r).1.countP Event.isClose = if (clientIter E router r).2 then 0 else 1 := by
  rcases clientIter_cases E router r with ⟨_, _, h⟩ | ⟨err, _, _, _, h⟩ | ⟨cmd, b, err, _, _, _, h⟩ |
    ⟨cmd, reply, _, _, _, h⟩
  · rw [h]; simp [Event.isClose]
  · rw [h]; cases r.sendErr err.msg <;> simp [closeAfter, Event.isClose]
  · rw [h]; cases r.sendErr err.msg <;> simp [closeAfter, Event.isClose]
  · rw [h]; cases r.sendReply reply <;> simp [closeAfter, Event.isClose]

theorem clientBody_close_count {H : Type} (E : GoError) (router : String → H)
    (script : List (Round H)) :
    (clientBody E router script).trace.countP Event.isClose =
      if (clientBody E router script).exited then 1 else 0 := by
  induction script with
  | nil => simp [clientBody]
  | cons r rest ih =>
    have hc := clientIter_close_count E router r
    cases hcont : (clientIter E router r).2 with
    | true =>
      rw [clientBody_cons_continue E router r rest hcont]
      rw [hcont] at hc
      simp only [List.countP_append, hc, ih, if_true, Nat.zero_add]
    | false =>
      rw [clientBody_cons_exit E router r rest hcont]
      rw [hcont] at hc
      simpa using hc

/-- C5: at each of the three places where the loop writes (the error reply to a
decode error, the error reply to a handler error, the success reply), a write
that returns an error is followed by one close of the session and the return of
the function, with no further decode, handler or write; a write that succeeds
is followed by no close and the loop goes on.  Over a whole run the session is
closed once when the function has returned and not at all while it runs. -/
theorem send_failure_closes_once {H : Type} (E : GoError) (router : String → H) (r : Round H) :
    (∀ err, r.parseCmd = .error err → err ≠ E →
      replyOf E router r = some (.sendErr err.msg)) ∧
    (∀ cmd b err, r.parseCmd = .ok cmd → r.exec (router cmd.Name) cmd = (b, some err) →
      replyOf E router r = some (.sendErr err.msg)) ∧
    (∀ cmd reply, r.parseCmd = .ok cmd → r.exec (router cmd.Name) cmd = (reply, none) →
      replyOf E router r = some (.sendReply reply)) ∧
    (∀ e, replyOf E router r = some e →
      ∃ pre, (∀ x ∈ pre, x.isSend = false ∧ x.isClose = false) ∧
        (clientIter E router r).1 = pre ++ [e] ++ closeAfter (r.sendResult e) ∧
        (∀ g, r.sendResult e = some g →
          (clientIter E router r).1 = pre ++ [e, .close] ∧
          (clientIter E router r).1.countP Event.isClose = 1 ∧
          (clientIter E router r).2 = false ∧
          ∀ rest, clientBody E router (r :: rest) =
            { trace := pre ++ [e, .close], exited := true }) ∧
        (r.sendResult e = none →
          (clientIter E router r).1 = pre ++ [e] ∧
          (clientIter E router r).1.countP Event.isClose = 0 ∧
          (clientIter E router r).2 = true ∧
          ∀ rest, clientBody E router (r :: rest) =
            { trace := pre ++ [e] ++ (clientBody E router rest).trace,
              exited := (clientBody E router rest).exited })) ∧
    (∀ script, (clientBody E router script).trace.countP Event.isClose =
      if (clientBody E router script).exited then 1 else 0) := by
  refine ⟨?_, ?_, ?_, ?_, clientBody_close_count E router⟩
  · intro err hp hne
    simp [replyOf, hp, hne]
  · intro cmd b err hp hx
    simp [replyOf, hp, hx]
  · intro cmd reply hp hx
    simp [replyOf, hp, hx]
  · intro e he
    have key : ∀ (pre : List (Event H)),
        (∀ x ∈ pre, x.isSend = false ∧ x.isClose = false) →
        e.isClose = false →
        clientIter E router r = (pre ++ [e] ++ closeAfter (r.sendResult e),
          (r.sendResult e).isNone) →
        ∃ pre, (∀ x ∈ pre, x.isSend = false ∧ x.isClose = false) ∧
        (clientIter E router r).1 = pre ++ [e] ++ closeAfter (r.sendResult e) ∧
        (∀ g, r.sendResult e = some g →
          (clientIter E router r).1 = pre ++ [e, .close] ∧
          (clientIter E router r).1.countP Event.isClose = 1 ∧
          (clientIter E router r).2 = false ∧
          ∀ rest, clientBody E router (r :: rest) =
            { trace := pre ++ [e, .close], exited := true }) ∧
        (r.sendResult e = none →
          (clientIter E router r).1 = pre ++ [e] ∧
          (clientIter E router r).1.countP Event.isClose = 0 ∧
          (clientIter E router r).2 = true ∧
          ∀ rest, clientBody E router (r :: rest) =
            { trace := pre ++ [e] ++ (clientBody E router rest).trace,
              exited := (clientBody E router rest).exited }) := by
      intro pre hpre hec hit
      have hcnt := clientIter_close_count E router r
      refine ⟨pre, hpre, by rw [hit], ?_, ?_⟩
      · intro g hg
        rw [hg] at hit
        have h2 : (clientIter E router r).2 = false := by rw [hit]; rfl
        have h1 : (clientIter E router r).1 = pre ++ [e, .close] := by
          rw [hit]; simp [closeAfter]
        refine ⟨h1, ?_, h2, ?_⟩
        · rw [hcnt, h2]; rfl
        · intro rest
          rw [clientBody_cons_exit E router r rest h2, h1]
      · intro hg
        rw [hg] at hit
        have h2 : (clientIter E router r).2 = true := by rw [hit]; rfl
        have h1 : (clientIter E router r).1 = pre ++ [e] := by
          rw [hit]; simp [closeAfter]
        refine ⟨h1, ?_, h2, ?_⟩
        · rw [hcnt, h2]; rfl
        · intro rest
          rw [clientBody_cons_continue E router r rest h2, h1]
    rcases clientIter_cases E router r with ⟨_, hr, _⟩ | ⟨err, _, _, hr, h⟩ |
      ⟨cmd, b, err, _, _, hr, h⟩ | ⟨cmd, reply, _, _, hr, h⟩
    · rw [hr] at he; cases he
    · rw [hr] at he; cases he
      exact key [.resetLimit, .parseCmd] (by simp [Event.isSend, Event.isClose]) rfl h
    · rw [hr] at he; cases he
      exact key [.resetLimit, .parseCmd, .route cmd.Name, .exec (router cmd.Name) cmd]
        (by simp [Event.isSend, Event.isClose]) rfl (by rw [h]; simp [Round.sendResult])
    · rw [hr] at he; cases he
      exact key [.resetLimit, .parseCmd, .route cmd.Name, .exec (router cmd.Name) cmd]
        (by simp [Event.isSend, Event.isClose]) rfl (by rw [h]; simp [Round.sendResult])

/-- Witness of C5: a success reply whose write fails, followed by a command that
is never decoded. -/
theorem send_failure_closes_once_witness :
    replyOf ⟨0, "read"⟩ (fun _ => (7 : Nat))
      ⟨.ok ⟨"PING", []⟩, fun _ _ => ([1], none), fun _ => none, fun _ => some ⟨2, "pipe"⟩⟩
      = some (.sendReply [1]) :=
  (send_failure_closes_once ⟨0, "read"⟩ (fun _ => (7 : Nat))
    ⟨.ok ⟨"PING", []⟩, fun _ _ => ([1], none), fun _ => none,
      fun _ => some ⟨2, "pipe"⟩⟩).2.2.1 ⟨"PING", []⟩ [1] rfl rfl

theorem clientIter_sends {H : Type} (E : GoError) (router : String → H) (r : Round H) :
    (clientIter E router r).1.filter Event.isSend = (replyOf E router r).toList := by
  rcases clientIter_cases E router r with ⟨_, hr, h⟩ | ⟨err, _, _, hr, h⟩ |
    ⟨cmd, b, err, _, _, hr, h⟩ | ⟨cmd, reply, _, _, hr, h⟩
  · rw [h, hr]; simp [Event.isSend]
  · rw [h, hr]; cases r.sendErr err.msg <;> simp [closeAfter, Event.isSend]
  · rw [h, hr]; cases r.sendErr err.msg <;> simp [closeAfter, Event.isSend]
  · rw [h, hr]; cases r.sendReply reply <;> simp [closeAfter, Event.isSend]

theorem clientBody_trace_blocks {H : Type} (E : GoError) (router : String → H)
    (script : List (Round H)) :
    (clientBody E router script).trace =
      ((processed E router script).map (fun r => (clientIter E router r).1)).flatten := by
  induction script with
  | nil => simp [clientBody, processed]
  | cons r rest ih =>
    cases hcont : (clientIter E router r).2 with
    | true =>
      rw [clientBody_cons_continue E router r rest hcont]
      simp [processed, hcont, ih]
    | false =>
      rw [clientBody_cons_exit E router r rest hcont]
      simp [processed, hcont]

theorem clientBody_sends {H : Type} (E : GoError) (router : String → H)
    (script : List (Round H)) :
    (clientBody E router script).trace.filter Event.isSend =
      (processed E router script).filterMap (replyOf E router) := by
  induction script with
  | nil => simp [clientBody, processed]
  | cons r rest ih =>
    have hs := clientIter_sends E router r
    cases hcont : (clientIter E router r).2 with
    | true =>
      rw [clientBody_cons_continue E router r rest hcont]
      simp only [List.filter_append, hs, ih, processed, hcont, if_true]
      cases hr : replyOf E router r <;> simp [hr]
    | false =>
      rw [clientBody_cons_exit E router r rest hcont]
      simp only [hs, processed, hcont]
      cases hr : replyOf E router r <;> simp [hr]

/-- C7: against every script of decode and handler outcomes, the calls of the
loop are the blocks of the rounds it gets to, one after the other in script
order; the block of a decoded command holds, after its `Exec` and before
anything of the next round, exactly one write: `SendReply` with the handler's
bytes when `Exec` returns no error, `SendErr` with the handler's error message
when it returns one; hence the writes of the run are the replies of the rounds
in the order of the script.  A handler error whose `SendErr` succeeds leaves
the session open and the loop running. -/
theorem replies_in_command_order {H : Type} (E : GoError) (router : String → H)
    (script : List (Round H)) :
    (clientBody E router script).trace =
      ((processed E router script).map (fun r => (clientIter E router r).1)).flatten ∧
    (clientBody E router script).trace.filter Event.isSend =
      (processed E router script).filterMap (replyOf E router) ∧
    (∀ (r : Round H) cmd, r.parseCmd = .ok cmd →
      ∃ e, replyOf E router r = some e ∧
        (∀ reply, r.exec (router cmd.Name) cmd = (reply, none) → e = .sendReply reply) ∧
        (∀ b err, r.exec (router cmd.Name) cmd = (b, some err) → e = .sendErr err.msg) ∧
        (clientIter E router r).1 =
          [.resetLimit, .parseCmd, .route cmd.Name, .exec (router cmd.Name) cmd, e]
            ++ closeAfter (r.sendResult e) ∧
        (clientIter E router r).1.filter Event.isSend = [e]) ∧
    (∀ (r : Round H) cmd b err, r.parseCmd = .ok cmd →
      r.exec (router cmd.Name) cmd = (b, some err) → r.sendErr err.msg = none →
      (clientIter E router r).1.countP Event.isClose = 0 ∧
      (clientIter E router r).2 = true ∧
      ∀ rest, clientBody E router (r :: rest) =
        { trace := [.resetLimit, .parseCmd, .route cmd.Name, .exec (router cmd.Name) cmd,
            .sendErr err.msg] ++ (clientBody E router rest).trace,
          exited := (clientBody E router rest).exited }) := by
  refine ⟨clientBody_trace_blocks E router script, clientBody_sends E router script, ?_, ?_⟩
  · intro r cmd hp
    have hs := clientIter_sends E router r
    cases hx : r.exec (router cmd.Name) cmd with
    | mk b oe =>
      cases oe with
      | some err =>
        have hit := clientIter_handlerErr E router r cmd b err hp hx
        have hr : replyOf E router r = some (.sendErr err.msg) := by simp [replyOf, hp, hx]
        refine ⟨.sendErr err.msg, hr, ?_, ?_, ?_, ?_⟩
        · intro reply h; cases h
        · intro b1 err1 h; cases h; rfl
        · rw [hit]; simp [Round.sendResult]
        · rw [hs, hr]; rfl
      | none =>
        have hit := clientIter_success E router r cmd b hp hx
        have hr : replyOf E router r = some (.sendReply b) := by simp [replyOf, hp, hx]
        refine ⟨.sendReply b, hr, ?_, ?_, ?_, ?_⟩
        · intro reply h; cases h; rfl
        · intro b1 err1 h; cases h
        · rw [hit]; simp [Round.sendResult]
        · rw [hs, hr]; rfl
  · intro r cmd b err hp hx hsend
    have hit := clientIter_handlerErr E router r cmd b err hp hx
    rw [hsend] at hit
    simp only [closeAfter, List.append_nil, Option.isNone_none] at hit
    have h2 : (clientIter E router r).2 = true := by rw [hit]
    refine ⟨?_, h2, ?_⟩
    · rw [clientIter_close_count, h2]; rfl
    · intro rest
      rw [clientBody_cons_continue E router r rest h2, hit]

/-- Witness of C7: a handler error on `FOO` answered, the loop still running. -/
theorem replies_in_command_order_witness :
    (clientIter ⟨0, "read"⟩ (fun _ => (7 : Nat))
      ⟨.ok ⟨"FOO", []⟩, fun _ _ => ([], some ⟨3, "unknown"⟩), fun _ => none,
        fun _ => none⟩).2 = true :=
  ((replies_in_command_order ⟨0, "read"⟩ (fun _ => (7 : Nat)) []).2.2.2
    ⟨.ok ⟨"FOO", []⟩, fun _ _ => ([], some ⟨3, "unknown"⟩), fun _ => none, fun _ => none⟩
    ⟨"FOO", []⟩ [] ⟨3, "unknown"⟩ rfl rfl rfl).2.1


/-! ## The steps of the process -/

theorem step_of_running {H P : Type} (E : GoError) (w : World H P) (a : Action H)
    (h : w.crashed = false) : step E w a = stepLive E w a := by
  simp [step, h]

theorem step_of_crashed {H P : Type} (E : GoError) (w : World H P) (a : Action H)
    (h : w.crashed = true) : step E w a = none := by
  simp [step, h]

/-- The transitions of `step`, one by one. -/
theorem step_cases {H P : Type} (E : GoError) (w w1 : World H P) (a : Action H)
    (hstep : step E w a = some w1) :
    w.crashed = false ∧
    ((∃ fd, a = .lasCall (.ok fd) ∧ w.stp = .idle ∧
      w1 = { w with srv := { w.srv with ln := some { fd := fd, closed := false } },
                    las := w.las ++ [.bound] }) ∨
    (∃ e, a = .lasCall (.error e) ∧ w.stp = .idle ∧
      w1 = { w with srv := { w.srv with ln := none },
                    las := w.las ++ [.returning (some e)] }) ∨
    (∃ i now, a = .lasStart i now ∧ w.las[i]? = some .bound ∧
      w1 = { w with srv := w.srv.recordStart now, las := w.las.set i .atSelect }) ∨
    (∃ i, a = .lasSelect i ∧ w.las[i]? = some .atSelect ∧ 0 < w.srv.stop ∧
      w1 = { w with srv := { w.srv with stop := w.srv.stop - 1 },
                    las := w.las.set i (.returning none) }) ∨
    (∃ i l, a = .lasSelect i ∧ w.las[i]? = some .atSelect ∧ w.srv.stop = 0 ∧
      w.srv.ln = some l ∧
      w1 = { w with las := w.las.set i .inAccept, accepts := w.accepts + 1 }) ∨
    (∃ i, a = .lasSelect i ∧ w.las[i]? = some .atSelect ∧ w.srv.stop = 0 ∧
      w.srv.ln = none ∧ w1 = { w with crashed := true }) ∨
    (∃ i e, a = .lasAccept i (.error e) ∧ w.las[i]? = some .inAccept ∧
      w1 = { w with las := w.las.set i .atSelect }) ∨
    (∃ i conn script, a = .lasAccept i (.ok (conn, script)) ∧ w.las[i]? = some .inAccept ∧
      w1 = { w with las := w.las.set i .atSelect,
                    sessions := w.sessions ++
                      [{ conn := conn, done := [],
                         todo := (clientLoop E w.srv script).trace,
                         returns := (clientLoop E w.srv script).exited }] }) ∨
    (∃ i e, a = .lasReturn i ∧ w.las[i]? = some (.returning e) ∧
      w1 = { w with las := w.las.set i .returned,
                    rets := w.rets ++ [.listenAndServe i e] }) ∨
    (a = .stopCall ∧ w.stp = .idle ∧ w1 = { w with stp := .locked }) ∨
    (a = .stopSend ∧ w.stp = .locked ∧ w.srv.stop < stopCap ∧
      w1 = { w with srv := { w.srv with stop := w.srv.stop + 1 }, stp := .sent }) ∨
    (∃ r, a = .stopClose r ∧ w.stp = .sent ∧
      w1 = { w with srv := (w.srv.closeListener r).1,
                    stp := .closed (w.srv.closeListener r).2 }) ∨
    (∃ e, a = .stopReturn ∧ w.stp = .closed e ∧
      w1 = { w with stp := .idle, rets := w.rets ++ [.stop e] }) ∨
    (∃ i x e rest, a = .sessStep i ∧ w.sessions[i]? = some x ∧ x.todo = e :: rest ∧
      w1 = { w with srv := { w.srv with stats := e.onStats w.srv.stats },
                    sessions := w.sessions.set i
                      { x with done := x.done ++ [e], todo := rest } })) := by
  by_cases hc : w.crashed = true
  · rw [step_of_crashed E w a hc] at hstep
    cases hstep
  · have hcf : w.crashed = false := by simpa using hc
    refine ⟨hcf, ?_⟩
    rw [step_of_running E w a hcf] at hstep
    cases a with
    | lasCall r =>
      simp only [stepLive] at hstep
      split at hstep
      · rename_i hi
        cases r with
        | ok fd =>
          simp only [Server.listen] at hstep
          cases hstep
          exact Or.inl ⟨fd, rfl, hi, rfl⟩
        | error e =>
          simp only [Server.listen] at hstep
          cases hstep
          exact Or.inr (Or.inl ⟨e, rfl, hi, rfl⟩)
      · cases hstep
    | lasStart i now =>
      simp only [stepLive] at hstep
      split at hstep
      · rename_i hi
        cases hstep
        exact Or.inr (Or.inr (Or.inl ⟨i, now, rfl, hi, rfl⟩))
      · cases hstep
    | lasSelect i =>
      simp only [stepLive] at hstep
      split at hstep
      · rename_i hi
        by_cases hs : 0 < w.srv.stop
        · simp only [Server.recvStop, hs, if_true] at hstep
          cases hstep
          exact Or.inr (Or.inr (Or.inr (Or.inl ⟨i, rfl, hi, hs, rfl⟩)))
        · simp only [Server.recvStop, hs, if_false] at hstep
          cases hln : w.srv.ln with
          | some l =>
            simp only [hln] at hstep
            cases hstep
            exact Or.inr (Or.inr (Or.inr (Or.inr (Or.inl
              ⟨i, l, rfl, hi, by omega, rfl, rfl⟩))))
          | none =>
            simp only [hln] at hstep
            cases hstep
            exact Or.inr (Or.inr (Or.inr (Or.inr (Or.inr (Or.inl
              ⟨i, rfl, hi, by omega, rfl, rfl⟩)))))
      · cases hstep
    | lasAccept i r =>
      simp only [stepLive] at hstep
      split at hstep
      · rename_i hi
        cases r with
        | error e =>
          cases hstep
          exact Or.inr (Or.inr (Or.inr (Or.inr (Or.inr (Or.inr (Or.inl
            ⟨i, e, rfl, hi, rfl⟩))))))
        | ok cs =>
          obtain ⟨conn, script⟩ := cs
          cases hstep
          exact Or.inr (Or.inr (Or.inr (Or.inr (Or.inr (Or.inr (Or.inr (Or.inl
            ⟨i, conn, script, rfl, hi, rfl⟩)))))))
      · cases hstep
    | lasReturn i =>
      simp only [stepLive] at hstep
      split at hstep
      · rename_i e hi
        cases hstep
        exact Or.inr (Or.inr (Or.inr (Or.inr (Or.inr (Or.inr (Or.inr (Or.inr (Or.inl
          ⟨i, e, rfl, hi, rfl⟩))))))))
      · cases hstep
    | stopCall =>
      simp only [stepLive] at hstep
      split at hstep
      · rename_i hi
        cases hstep
        exact Or.inr (Or.inr (Or.inr (Or.inr (Or.inr (Or.inr (Or.inr (Or.inr (Or.inr (Or.inl
          ⟨rfl, hi, rfl⟩)))))))))
      · cases hstep
    | stopSend =>
      simp only [stepLive] at hstep
      split at hstep
      · rename_i hi
        by_cases hs : w.srv.stop < stopCap
        · simp only [Server.sendStop, hs, if_true] at hstep
          cases hstep
          exact Or.inr (Or.inr (Or.inr (Or.inr (Or.inr (Or.inr (Or.inr (Or.inr (Or.inr (Or.inr
            (Or.inl ⟨rfl, hi, hs, rfl⟩))))))))))
        · simp only [Server.sendStop, hs, if_false] at hstep
          cases hstep
      · cases hstep
    | stopClose r =>
      simp only [stepLive] at hstep
      split at hstep
      · rename_i hi
        cases hstep
        exact Or.inr (Or.inr (Or.inr (Or.inr (Or.inr (Or.inr (Or.inr (Or.inr (Or.inr (Or.inr
          (Or.inr (Or.inl ⟨r, rfl, hi, rfl⟩)))))))))))
      · cases hstep
    | stopReturn =>
      simp only [stepLive] at hstep
      split at hstep
      · rename_i e hi
        cases hstep
        exact Or.inr (Or.inr (Or.inr (Or.inr (Or.inr (Or.inr (Or.inr (Or.inr (Or.inr (Or.inr
          (Or.inr (Or.inr (Or.inl ⟨e, rfl, hi, rfl⟩))))))))))))
      · cases hstep
    | sessStep i =>
      simp only [stepLive] at hstep
      split at hstep
      · rename_i x hx
        split at hstep
        · rename_i e rest ht
          cases hstep
          exact Or.inr (Or.inr (Or.inr (Or.inr (Or.inr (Or.inr (Or.inr (Or.inr (Or.inr (Or.inr
            (Or.inr (Or.inr (Or.inr ⟨i, x, e, rest, rfl, hx, ht, rfl⟩))))))))))))
        · cases hstep
      · cases hstep


theorem lt_length_of_getElem? {α : Type} {l : List α} {i : Nat} {y : α} (h : l[i]? = some y) :
    i < l.length := by
  obtain ⟨hlt, _⟩ := List.getElem?_eq_some_iff.1 h
  exact hlt

theorem getElem?_set_same {α : Type} {l : List α} {i : Nat} {y : α} (x : α)
    (h : l[i]? = some y) : (l.set i x)[i]? = some x :=
  List.getElem?_set_self (lt_length_of_getElem? h)

theorem getElem?_set_cases {α : Type} (l : List α) (j i : Nat) (x y : α)
    (h : (l.set j x)[i]? = some y) : (i = j ∧ y = x ∧ i < l.length) ∨ l[i]? = some y := by
  rw [List.getElem?_set] at h
  split at h
  · rename_i hji
    split at h
    · rename_i hlt
      cases h
      exact Or.inl ⟨hji.symm, rfl, hji ▸ hlt⟩
    · cases h
  · exact Or.inr h

theorem getElem?_append_one_cases {α : Type} (l : List α) (i : Nat) (x y : α)
    (h : (l ++ [x])[i]? = some y) : (i = l.length ∧ y = x) ∨ l[i]? = some y := by
  rw [List.getElem?_append] at h
  split at h
  · exact Or.inr h
  · rename_i hge
    have hlt := lt_length_of_getElem? h
    simp only [List.length_singleton] at hlt
    have hi : i = l.length := by omega
    subst hi
    simp at h
    exact Or.inl ⟨rfl, h.symm⟩

theorem getElem?_append_of_some {α : Type} {l : List α} {i : Nat} {y : α} (r : List α)
    (h : l[i]? = some y) : (l ++ r)[i]? = some y := by
  rw [List.getElem?_append_left (lt_length_of_getElem? h)]
  exact h

/-! ## Stop -/

theorem Server.closeListener_frame {H P : Type} (s : Server H P) (r : Option GoError) :
    (s.closeListener r).1.Router = s.Router ∧ (s.closeListener r).1.Prot = s.Prot ∧
    (s.closeListener r).1.Addr = s.Addr ∧ (s.closeListener r).1.stats = s.stats ∧
    (s.closeListener r).1.stop = s.stop := by
  unfold Server.closeListener
  split <;> simp

/-- An uninterrupted `Stop` is the four steps `stopCall`, `stopSend`,
`stopClose`, `stopReturn` taken one after the other. -/
theorem run_stop {H P : Type} (E : GoError) (w : World H P) (closeRes : Option GoError) :
    run E w [.stopCall, .stopSend, .stopClose closeRes, .stopReturn] =
      (Stop w closeRes).map Prod.fst := by
  by_cases hc : w.crashed = true
  · simp [run, step, Stop, hc]
  · have hcf : w.crashed = false := by simpa using hc
    by_cases hi : w.stp = .idle
    · by_cases hs : w.srv.stop < stopCap
      · simp [run, step, stepLive, Stop, Server.Stop, Server.sendStop, hcf, hi, hs]
      · simp [run, step, stepLive, Stop, Server.Stop, Server.sendStop, hcf, hi, hs]
    · simp [run, step, stepLive, Stop, hcf, hi]

/-- C8: every step of `Stop`, in whatever world and between whatever steps of
other goroutines it is taken, leaves the address, the router, the protocol, the
stats (start time and active-clients count), the sessions and the calls of
`ListenAndServe` as they are: taking `mu` changes nothing, the send adds one
signal to the stop channel, the close marks an existing listener closed and
keeps the result of `Close` as the value to return (with no listener nothing is
closed and that value is nil), and the return hands that value back.  A call
that finds room in the stop channel and runs without interleaving places one
signal, closes the listener when one exists and returns the result of that
close, and on a server that was never started only places the signal and
returns nil.  A call that finds the channel full waits at the send until a stop
check has taken the pending signal, and then does the same. -/
theorem stop_frame {H P : Type} (E : GoError) (w : World H P) (closeRes : Option GoError) :
    (∀ w1, step E w .stopCall = some w1 →
      w.sameButStopAndListener w1 ∧ w1.srv.stop = w.srv.stop ∧ w1.srv.ln = w.srv.ln ∧
        w1.rets = w.rets) ∧
    (∀ w1, step E w .stopSend = some w1 →
      w.sameButStopAndListener w1 ∧ w1.srv.stop = w.srv.stop + 1 ∧ w1.srv.ln = w.srv.ln ∧
        w1.rets = w.rets) ∧
    (∀ w1, step E w (.stopClose closeRes) = some w1 →
      w.sameButStopAndListener w1 ∧ w1.srv.stop = w.srv.stop ∧ w1.rets = w.rets ∧
        (∀ l, w.srv.ln = some l →
          w1.srv.ln = some { l with closed := true } ∧ w1.stp = .closed closeRes) ∧
        (w.srv.ln = none → w1.srv.ln = none ∧ w1.stp = .closed none)) ∧
    (∀ w1, step E w .stopReturn = some w1 →
      w.sameButStopAndListener w1 ∧ w1.srv.stop = w.srv.stop ∧ w1.srv.ln = w.srv.ln ∧
        ∃ e, w.stp = .closed e ∧ w1.rets = w.rets ++ [.stop e]) ∧
    (w.crashed = false → w.stp = .idle → w.srv.stop < stopCap →
      ∃ w1 e, Stop w closeRes = some (w1, e) ∧
        run E w [.stopCall, .stopSend, .stopClose closeRes, .stopReturn] = some w1 ∧
        w.sameButStopAndListener w1 ∧
        w1.srv.stop = w.srv.stop + 1 ∧
        (∀ l, w.srv.ln = some l → w1.srv.ln = some { l with closed := true } ∧ e = closeRes) ∧
        (w.srv.ln = none → w1.srv.ln = none ∧ e = none) ∧
        w1.stp = .idle ∧ w1.rets = w.rets ++ [.stop e]) ∧
    (∀ (addr : String) (router : String → H) (prot : P),
      Stop (World.init (New addr router prot)) closeRes =
        some ({ World.init (New addr router prot) with
                  srv := { New addr router prot with stop := 1 },
                  rets := [.stop none] }, none)) ∧
    (∀ i err, w.crashed = false → w.stp = .idle → w.srv.stop = stopCap →
      w.las[i]? = some .inAccept →
      ∃ w2, run E w [.stopCall, .lasAccept i (.error err), .lasSelect i, .stopSend,
          .stopClose closeRes, .stopReturn] = some w2 ∧
        w2.srv.stop = stopCap ∧ w2.srv.stats = w.srv.stats ∧ w2.srv.Router = w.srv.Router ∧
        w2.srv.Prot = w.srv.Prot ∧ w2.sessions = w.sessions ∧
        w2.srv.ln = (w.srv.closeListener closeRes).1.ln ∧
        w2.rets = w.rets ++ [.stop (w.srv.closeListener closeRes).2]) := by
  refine ⟨?_, ?_, ?_, ?_, ?_, ?_, ?_⟩
  · intro w1 hstep
    obtain ⟨_, hcases⟩ := step_cases E w w1 _ hstep
    rcases hcases with ⟨_, h, _⟩ | ⟨_, h, _⟩ | ⟨_, _, h, _⟩ | ⟨_, h, _⟩ | ⟨_, _, h, _⟩ |
      ⟨_, h, _⟩ | ⟨_, _, h, _⟩ | ⟨_, _, _, h, _⟩ | ⟨_, _, h, _⟩ | ⟨_, _, rfl⟩ | ⟨h, _⟩ |
      ⟨_, h, _⟩ | ⟨_, h, _⟩ | ⟨_, _, _, _, h, _⟩ <;> first | cases h | skip
    exact ⟨⟨rfl, rfl, rfl, rfl, rfl, rfl, rfl, rfl⟩, rfl, rfl, rfl⟩
  · intro w1 hstep
    obtain ⟨_, hcases⟩ := step_cases E w w1 _ hstep
    rcases hcases with ⟨_, h, _⟩ | ⟨_, h, _⟩ | ⟨_, _, h, _⟩ | ⟨_, h, _⟩ | ⟨_, _, h, _⟩ |
      ⟨_, h, _⟩ | ⟨_, _, h, _⟩ | ⟨_, _, _, h, _⟩ | ⟨_, _, h, _⟩ | ⟨h, _⟩ | ⟨_, _, _, rfl⟩ |
      ⟨_, h, _⟩ | ⟨_, h, _⟩ | ⟨_, _, _, _, h, _⟩ <;> first | cases h | skip
    exact ⟨⟨rfl, rfl, rfl, rfl, rfl, rfl, rfl, rfl⟩, rfl, rfl, rfl⟩
  · intro w1 hstep
    obtain ⟨_, hcases⟩ := step_cases E w w1 _ hstep
    rcases hcases with ⟨_, h, _⟩ | ⟨_, h, _⟩ | ⟨_, _, h, _⟩ | ⟨_, h, _⟩ | ⟨_, _, h, _⟩ |
      ⟨_, h, _⟩ | ⟨_, _, h, _⟩ | ⟨_, _, _, h, _⟩ | ⟨_, _, h, _⟩ | ⟨h, _⟩ | ⟨h, _⟩ |
      ⟨r, h, _, rfl⟩ | ⟨_, h, _⟩ | ⟨_, _, _, _, h, _⟩ <;> cases h
    cases hln : w.srv.ln with
    | none =>
      refine ⟨⟨?_, ?_, ?_, ?_, rfl, rfl, rfl, rfl⟩, ?_, rfl, ?_, ?_⟩ <;>
        simp [Server.closeListener, hln]
    | some l =>
      refine ⟨⟨?_, ?_, ?_, ?_, rfl, rfl, rfl, rfl⟩, ?_, rfl, ?_, ?_⟩ <;>
        simp [Server.closeListener, hln]
  · intro w1 hstep
    obtain ⟨_, hcases⟩ := step_cases E w w1 _ hstep
    rcases hcases with ⟨_, h, _⟩ | ⟨_, h, _⟩ | ⟨_, _, h, _⟩ | ⟨_, h, _⟩ | ⟨_, _, h, _⟩ |
      ⟨_, h, _⟩ | ⟨_, _, h, _⟩ | ⟨_, _, _, h, _⟩ | ⟨_, _, h, _⟩ | ⟨h, _⟩ | ⟨h, _⟩ |
      ⟨_, h, _⟩ | ⟨e, _, he, rfl⟩ | ⟨_, _, _, _, h, _⟩ <;> first | cases h | skip
    exact ⟨⟨rfl, rfl, rfl, rfl, rfl, rfl, rfl, rfl⟩, rfl, rfl, e, he, rfl⟩
  · intro hcf hidle hroom
    cases hln : w.srv.ln with
    | none =>
      refine ⟨{ w with srv := { w.srv with stop := w.srv.stop + 1 },
                       rets := w.rets ++ [.stop none] }, none, ?_, ?_, ?_, ?_⟩
      · simp [Stop, hcf, hidle, Server.Stop, Server.sendStop, hroom, Server.closeListener, hln]
      · rw [run_stop]
        simp [Stop, hcf, hidle, Server.Stop, Server.sendStop, hroom, Server.closeListener, hln]
      · exact ⟨rfl, rfl, rfl, rfl, rfl, rfl, rfl, rfl⟩
      · simp [hidle, hln]
    | some l =>
      refine ⟨{ w with srv := { w.srv with stop := w.srv.stop + 1,
                                           ln := some { l with closed := true } },
                       rets := w.rets ++ [.stop closeRes] }, closeRes, ?_, ?_, ?_, ?_⟩
      · simp [Stop, hcf, hidle, Server.Stop, Server.sendStop, hroom, Server.closeListener, hln]
      · rw [run_stop]
        simp [Stop, hcf, hidle, Server.Stop, Server.sendStop, hroom, Server.closeListener, hln]
      · exact ⟨rfl, rfl, rfl, rfl, rfl, rfl, rfl, rfl⟩
      · simp [hidle]
  · intro addr router prot
    rfl
  · intro i err hc hidle hfull hi
    have h1 := getElem?_set_same LasPc.atSelect hi
    have hfull1 : w.srv.stop = 1 := hfull
    cases hln : w.srv.ln with
    | none =>
      refine ⟨{ w with srv := { w.srv with stop := 1 },
                       las := w.las.set i (.returning none),
                       rets := w.rets ++ [.stop none] }, ?_, rfl, rfl, rfl, rfl, rfl, ?_, ?_⟩
      · simp [run, step, stepLive, hc, hi, h1, hidle, hfull1, Server.sendStop, Server.recvStop,
          Server.closeListener, stopCap, hln, List.set_set]
      · simp [Server.closeListener, hln]
      · simp [Server.closeListener, hln]
    | some l =>
      refine ⟨{ w with srv := { w.srv with stop := 1, ln := some { l with closed := true } },
                       las := w.las.set i (.returning none),
                       rets := w.rets ++ [.stop closeRes] }, ?_, rfl, rfl, rfl, rfl, rfl, ?_, ?_⟩
      · simp [run, step, stepLive, hc, hi, h1, hidle, hfull1, Server.sendStop, Server.recvStop,
          Server.closeListener, stopCap, hln, List.set_set]
      · simp [Server.closeListener, hln]
      · simp [Server.closeListener, hln]

/-- Witness of C8: `Stop` on a server that listens on socket 3 with a call of
`ListenAndServe` inside `Accept` and two sessions accepted. -/
theorem stop_frame_witness :
    ∃ w1, Stop ({ srv := { New "a" (fun _ => (0 : Nat)) () with
                              ln := some ⟨3, false⟩,
                              stats := ⟨2, some 100⟩ },
                    las := [.inAccept], stp := .idle,
                    sessions := [⟨1, [.activeInc], [], false⟩, ⟨2, [.activeInc], [], false⟩],
                    accepts := 3, rets := [], crashed := false } : World Nat Unit)
                (some ⟨5, "close"⟩) = some (w1, some ⟨5, "close"⟩) ∧
      w1.srv.stop = 1 ∧ w1.srv.ln = some ⟨3, true⟩ ∧
      w1.srv.stats = ⟨2, some 100⟩ ∧ w1.sessions.length = 2 ∧ w1.las = [.inAccept] := by
  obtain ⟨w1, e, h, _, hsame, hs, hl, _, _, _⟩ :=
    (stop_frame ⟨0, "read"⟩
      ({ srv := { New "a" (fun _ => (0 : Nat)) () with
                              ln := some ⟨3, false⟩,
                              stats := ⟨2, some 100⟩ },
                    las := [.inAccept], stp := .idle,
                    sessions := [⟨1, [.activeInc], [], false⟩, ⟨2, [.activeInc], [], false⟩],
                    accepts := 3, rets := [], crashed := false } : World Nat Unit)
      (some ⟨5, "close"⟩)).2.2.2.2.1 rfl rfl (by decide)
  obtain ⟨hl1, hl2⟩ := hl ⟨3, false⟩ rfl
  subst hl2
  obtain ⟨_, _, _, hst, hse, hlas, _, _⟩ := hsame
  exact ⟨w1, h, hs, hl1, hst, by rw [hse]; rfl, hlas⟩


/-! ## The accept loop -/

/-- A call of `ListenAndServe` that is about to return or has returned takes no
further step of the loop and stays that way. -/
theorem step_after_return {H P : Type} (E : GoError) (w w1 : World H P) (a : Action H)
    (i : Nat) (e : Option GoError)
    (hpc : w.las[i]? = some (.returning e) ∨ w.las[i]? = some .returned)
    (hstep : step E w a = some w1) :
    a.isLoopStepOf i = false ∧
      (w1.las[i]? = some (.returning e) ∨ w1.las[i]? = some .returned) := by
  have hother : ∀ (j : Nat) (pc pc1 : LasPc), w.las[j]? = some pc →
      pc ≠ .returning e → pc ≠ .returned →
      j ≠ i ∧ ((w.las.set j pc1)[i]? = some (.returning e) ∨
        (w.las.set j pc1)[i]? = some .returned) := by
    intro j pc pc1 hj h1 h2
    have hji : j ≠ i := by
      rintro rfl
      rcases hpc with h | h <;> rw [h] at hj <;> cases hj
      · exact h1 rfl
      · exact h2 rfl
    refine ⟨hji, ?_⟩
    rw [List.getElem?_set_ne hji]
    exact hpc
  obtain ⟨_, hcases⟩ := step_cases E w w1 a hstep
  rcases hcases with ⟨fd, rfl, _, rfl⟩ | ⟨e1, rfl, _, rfl⟩ | ⟨j, now, rfl, hj, rfl⟩ |
    ⟨j, rfl, hj, _, rfl⟩ | ⟨j, l, rfl, hj, _, _, rfl⟩ | ⟨j, rfl, hj, _, _, rfl⟩ |
    ⟨j, e1, rfl, hj, rfl⟩ | ⟨j, conn, script, rfl, hj, rfl⟩ | ⟨j, e1, rfl, hj, rfl⟩ |
    ⟨rfl, _, rfl⟩ | ⟨rfl, _, _, rfl⟩ | ⟨r, rfl, _, rfl⟩ | ⟨e1, rfl, _, rfl⟩ |
    ⟨k, x, e1, rest, rfl, _, _, rfl⟩
  · refine ⟨rfl, ?_⟩
    rcases hpc with h | h
    · exact Or.inl (getElem?_append_of_some _ h)
    · exact Or.inr (getElem?_append_of_some _ h)
  · refine ⟨rfl, ?_⟩
    rcases hpc with h | h
    · exact Or.inl (getElem?_append_of_some _ h)
    · exact Or.inr (getElem?_append_of_some _ h)
  · obtain ⟨hji, h⟩ := hother j _ .atSelect hj (by simp) (by simp)
    exact ⟨by simp [Action.isLoopStepOf, hji], h⟩
  · obtain ⟨hji, h⟩ := hother j _ (.returning none) hj (by simp) (by simp)
    exact ⟨by simp [Action.isLoopStepOf, hji], h⟩
  · obtain ⟨hji, h⟩ := hother j _ .inAccept hj (by simp) (by simp)
    exact ⟨by simp [Action.isLoopStepOf, hji], h⟩
  · obtain ⟨hji, _⟩ := hother j _ .inAccept hj (by simp) (by simp)
    exact ⟨by simp [Action.isLoopStepOf, hji], hpc⟩
  · obtain ⟨hji, h⟩ := hother j _ .atSelect hj (by simp) (by simp)
    exact ⟨by simp [Action.isLoopStepOf, hji], h⟩
  · obtain ⟨hji, h⟩ := hother j _ .atSelect hj (by simp) (by simp)
    exact ⟨by simp [Action.isLoopStepOf, hji], h⟩
  · refine ⟨rfl, ?_⟩
    by_cases hji : j = i
    · subst hji
      exact Or.inr (getElem?_set_same _ hj)
    · show (w.las.set j .returned)[i]? = _ ∨ (w.las.set j .returned)[i]? = _
      rw [List.getElem?_set_ne hji]
      exact hpc
  · exact ⟨rfl, hpc⟩
  · exact ⟨rfl, hpc⟩
  · exact ⟨rfl, hpc⟩
  · exact ⟨rfl, hpc⟩
  · exact ⟨rfl, hpc⟩

theorem run_after_return {H P : Type} (E : GoError) (i : Nat) (e : Option GoError)
    (acts : List (Action H)) :
    ∀ (w w1 : World H P),
      (w.las[i]? = some (.returning e) ∨ w.las[i]? = some .returned) →
      run E w acts = some w1 →
      (∀ a ∈ acts, a.isLoopStepOf i = false) ∧
        (w1.las[i]? = some (.returning e) ∨ w1.las[i]? = some .returned) := by
  induction acts with
  | nil =>
    intro w w1 hpc hrun
    simp only [run, Option.some.injEq] at hrun
    subst hrun
    exact ⟨by simp, hpc⟩
  | cons a rest ih =>
    intro w w1 hpc hrun
    simp only [run] at hrun
    cases hs : step E w a with
    | none => rw [hs] at hrun; cases hrun
    | some w2 =>
      rw [hs] at hrun
      obtain ⟨ha, hpc2⟩ := step_after_return E w w2 a i e hpc hs
      obtain ⟨hrest, hpc1⟩ := ih w2 w1 hpc2 hrun
      refine ⟨?_, hpc1⟩
      intro b hb
      rcases List.mem_cons.1 hb with rfl | hb1
      · exact ha
      · exact hrest b hb1

/-- C9: a return of call `i` of `ListenAndServe` is made only from the point
where the call is about to return; a call gets to that point in just two ways:
at the stop check, by receiving a stop signal, and then the value is nil, or at
the bind, by `net.Listen` failing, and then the value is that error, the stats
and the count of accepts are as they were, and in no run that follows does the
call record a start time, check for a stop or accept.  A failed `Accept`
returns nothing and leads back to the stop check, so that with a signal pending
(as after a `Stop`, which also closes the listener) the failed `Accept`, the
next stop check and the return end the call with nil and the signal consumed.
All of it holds whatever other calls of `ListenAndServe` are under way. -/
theorem accept_loop_returns_on_stop {H P : Type} (E : GoError) (w : World H P) :
    (∀ a w1 i e, step E w a = some w1 → w1.rets = w.rets ++ [.listenAndServe i e] →
      a = .lasReturn i ∧ w.las[i]? = some (.returning e) ∧ w1.las[i]? = some .returned) ∧
    (∀ a w1 i e, step E w a = some w1 → w1.las[i]? = some (.returning e) →
      w.las[i]? ≠ some (.returning e) →
      (e = none ∧ a = .lasSelect i ∧ w.las[i]? = some .atSelect ∧ 0 < w.srv.stop ∧
        w1.srv.stop + 1 = w.srv.stop) ∨
      (∃ err, e = some err ∧ a = .lasCall (.error err) ∧ i = w.las.length ∧
        w1.srv.stats = w.srv.stats ∧ w1.accepts = w.accepts ∧ w1.sessions = w.sessions ∧
        w1.srv.ln = none)) ∧
    (∀ i err, w.crashed = false → w.las[i]? = some .inAccept →
      step E w (.lasAccept i (.error err)) = some { w with las := w.las.set i .atSelect }) ∧
    (∀ i err, w.crashed = false → w.las[i]? = some .inAccept → 0 < w.srv.stop →
      run E w [.lasAccept i (.error err), .lasSelect i, .lasReturn i] =
        some { w with srv := { w.srv with stop := w.srv.stop - 1 },
                      las := w.las.set i .returned,
                      rets := w.rets ++ [.listenAndServe i none] }) ∧
    (∀ i closeRes err, w.crashed = false → w.las[i]? = some .inAccept → w.stp = .idle →
      w.srv.stop = 0 →
      ∃ w2, run E w [.stopCall, .stopSend, .stopClose closeRes, .stopReturn,
          .lasAccept i (.error err), .lasSelect i, .lasReturn i] = some w2 ∧
        w2.rets = w.rets ++ [.stop (w.srv.closeListener closeRes).2, .listenAndServe i none] ∧
        w2.las[i]? = some .returned ∧ w2.srv.stop = 0 ∧ w2.listenerOpen = false) ∧
    (∀ err, w.crashed = false → w.stp = .idle →
      step E w (.lasCall (.error err)) =
        some { w with srv := { w.srv with ln := none },
                      las := w.las ++ [.returning (some err)] } ∧
      run E w [.lasCall (.error err), .lasReturn w.las.length] =
        some { w with srv := { w.srv with ln := none },
                      las := w.las ++ [.returned],
                      rets := w.rets ++ [.listenAndServe w.las.length (some err)] } ∧
      (∀ acts w2, run E w (.lasCall (.error err) :: acts) = some w2 →
        (∀ a ∈ acts, a.isLoopStepOf w.las.length = false) ∧
          (w2.las[w.las.length]? = some (.returning (some err)) ∨
            w2.las[w.las.length]? = some .returned))) ∧
    (∀ i e acts w1, (w.las[i]? = some (.returning e) ∨ w.las[i]? = some .returned) →
      run E w acts = some w1 →
      (∀ a ∈ acts, a.isLoopStepOf i = false) ∧
        (w1.las[i]? = some (.returning e) ∨ w1.las[i]? = some .returned)) := by
  refine ⟨?_, ?_, ?_, ?_, ?_, ?_, ?_⟩
  · intro a w1 i e hstep hret
    obtain ⟨_, hcases⟩ := step_cases E w w1 a hstep
    rcases hcases with ⟨fd, rfl, _, rfl⟩ | ⟨e1, rfl, _, rfl⟩ | ⟨j, now, rfl, hj, rfl⟩ |
      ⟨j, rfl, hj, _, rfl⟩ | ⟨j, l, rfl, hj, _, _, rfl⟩ | ⟨j, rfl, hj, _, _, rfl⟩ |
      ⟨j, e1, rfl, hj, rfl⟩ | ⟨j, conn, script, rfl, hj, rfl⟩ | ⟨j, e1, rfl, hj, rfl⟩ |
      ⟨rfl, _, rfl⟩ | ⟨rfl, _, _, rfl⟩ | ⟨r, rfl, _, rfl⟩ | ⟨e1, rfl, _, rfl⟩ |
      ⟨k, x, e1, rest, rfl, _, _, rfl⟩
    all_goals try (simp at hret; done)
    simp at hret
    obtain ⟨rfl, rfl⟩ := hret
    exact ⟨rfl, hj, getElem?_set_same _ hj⟩
  · intro a w1 i e hstep hnew hold
    obtain ⟨_, hcases⟩ := step_cases E w w1 a hstep
    rcases hcases with ⟨fd, rfl, _, rfl⟩ | ⟨e1, rfl, _, rfl⟩ | ⟨j, now, rfl, hj, rfl⟩ |
      ⟨j, rfl, hj, hs, rfl⟩ | ⟨j, l, rfl, hj, _, _, rfl⟩ | ⟨j, rfl, hj, _, _, rfl⟩ |
      ⟨j, e1, rfl, hj, rfl⟩ | ⟨j, conn, script, rfl, hj, rfl⟩ | ⟨j, e1, rfl, hj, rfl⟩ |
      ⟨rfl, _, rfl⟩ | ⟨rfl, _, _, rfl⟩ | ⟨r, rfl, _, rfl⟩ | ⟨e1, rfl, _, rfl⟩ |
      ⟨k, x, e1, rest, rfl, _, _, rfl⟩
    · rcases getElem?_append_one_cases _ _ _ _ hnew with ⟨_, h⟩ | h
      · cases h
      · exact absurd h hold
    · rcases getElem?_append_one_cases _ _ _ _ hnew with ⟨hi, h⟩ | h
      · cases h
        exact Or.inr ⟨e1, rfl, rfl, hi, rfl, rfl, rfl, rfl⟩
      · exact absurd h hold
    · rcases getElem?_set_cases _ _ _ _ _ hnew with ⟨_, h, _⟩ | h
      · cases h
      · exact absurd h hold
    · rcases getElem?_set_cases _ _ _ _ _ hnew with ⟨hi, h, _⟩ | h
      · cases h
        subst hi
        refine Or.inl ⟨rfl, rfl, hj, hs, ?_⟩
        show w.srv.stop - 1 + 1 = w.srv.stop
        omega
      · exact absurd h hold
    · rcases getElem?_set_cases _ _ _ _ _ hnew with ⟨_, h, _⟩ | h
      · cases h
      · exact absurd h hold
    · exact absurd hnew hold
    · rcases getElem?_set_cases _ _ _ _ _ hnew with ⟨_, h, _⟩ | h
      · cases h
      · exact absurd h hold
    · rcases getElem?_set_cases _ _ _ _ _ hnew with ⟨_, h, _⟩ | h
      · cases h
      · exact absurd h hold
    · rcases getElem?_set_cases _ _ _ _ _ hnew with ⟨_, h, _⟩ | h
      · cases h
      · exact absurd h hold
    · exact absurd hnew hold
    · exact absurd hnew hold
    · exact absurd hnew hold
    · exact absurd hnew hold
    · exact absurd hnew hold
  · intro i err hc hi
    simp [step, stepLive, hc, hi]
  · intro i err hc hi hs
    have h1 := getElem?_set_same LasPc.atSelect hi
    have h2 := getElem?_set_same (LasPc.returning none) hi
    simp [run, step, stepLive, hc, hi, h1, h2, Server.recvStop, hs, List.set_set]
  · intro i closeRes err hc hi hidle hs
    have h1 := getElem?_set_same LasPc.atSelect hi
    have h2 := getElem?_set_same (LasPc.returning none) hi
    have h3 := getElem?_set_same LasPc.returned hi
    refine ⟨{ w with srv := { (w.srv.closeListener closeRes).1 with stop := 0 },
                     las := w.las.set i .returned,
                     rets := w.rets ++ [.stop (w.srv.closeListener closeRes).2,
                       .listenAndServe i none] }, ?_, rfl, ?_, rfl, ?_⟩
    · cases hln : w.srv.ln <;>
        simp [run, step, stepLive, hc, hi, h1, h2, hidle, hs, Server.sendStop, Server.recvStop,
          Server.closeListener, stopCap, hln, List.set_set]
    · exact h3
    · cases hln : w.srv.ln <;> simp [World.listenerOpen, Server.closeListener, hln]
  · intro err hc hidle
    have hstep : step E w (.lasCall (.error err)) =
        some { w with srv := { w.srv with ln := none },
                      las := w.las ++ [.returning (some err)] } := by
      simp [step, stepLive, hc, hidle, Server.listen]
    refine ⟨hstep, ?_, ?_⟩
    · simp [run, step, stepLive, hc, hidle, Server.listen]
    · intro acts w2 hrun
      simp only [run, hstep] at hrun
      exact run_after_return E w.las.length (some err) acts _ w2 (Or.inl (by simp)) hrun
  · intro i e acts w1 hpc hrun
    exact run_after_return E i e acts w w1 hpc hrun

/-- Witness of C9: a server parked in `Accept` with a stop signal pending and
its listener closed; the accept fails and the call returns nil. -/
theorem accept_loop_returns_on_stop_witness :
    (run ⟨0, "read"⟩
      ({ srv := { New "a" (fun _ => (0 : Nat)) () with ln := some ⟨3, true⟩, stop := 1 },
         las := [.inAccept], stp := .idle, sessions := [], accepts := 1, rets := [],
         crashed := false } : World Nat Unit)
      [.lasAccept 0 (.error ⟨9, "use of closed network connection"⟩), .lasSelect 0,
        .lasReturn 0]).map
        (fun w => (w.rets, w.las, w.srv.stop))
      = some ([.listenAndServe 0 none], [.returned], 0) := by
  rw [(accept_loop_returns_on_stop ⟨0, "read"⟩
      ({ srv := { New "a" (fun _ => (0 : Nat)) () with ln := some ⟨3, true⟩, stop := 1 },
         las := [.inAccept], stp := .idle, sessions := [], accepts := 1, rets := [],
         crashed := false } : World Nat Unit)).2.2.2.1 0
      ⟨9, "use of closed network connection"⟩ rfl rfl (by decide)]
  rfl


/-! ## The listener -/

/-- Counterexample to C10 as stated: `ListenAndServe` binds socket 3, `Stop`
closes it and the call returns nil; a second `ListenAndServe` on the same server
binds socket 4 and the server holds an open listener again. -/
theorem listener_reopened_by_second_start :
    (run ⟨0, "read"⟩ (World.init (New "a" (fun _ => (0 : Nat)) ()))
      [.lasCall (.ok 3), .lasStart 0 100, .lasSelect 0, .stopCall, .stopSend, .stopClose none,
        .stopReturn, .lasAccept 0 (.error ⟨9, "closed"⟩), .lasSelect 0, .lasReturn 0]).map
        (fun w => (w.listenerClosed, w.srv.ln, w.rets))
      = some (true, some ⟨3, true⟩, [.stop none, .listenAndServe 0 none]) ∧
    (run ⟨0, "read"⟩ (World.init (New "a" (fun _ => (0 : Nat)) ()))
      [.lasCall (.ok 3), .lasStart 0 100, .lasSelect 0, .stopCall, .stopSend, .stopClose none,
        .stopReturn, .lasAccept 0 (.error ⟨9, "closed"⟩), .lasSelect 0, .lasReturn 0,
        .lasCall (.ok 4)]).map
        (fun w => (w.listenerOpen, w.srv.ln))
      = some (true, some ⟨4, false⟩) := by
  constructor <;> rfl

theorem step_keeps_listener_shut {H P : Type} (E : GoError) (w w1 : World H P) (a : Action H)
    (hshut : w.listenerOpen = false) (hbind : a.isBind = false)
    (hstep : step E w a = some w1) : w1.listenerOpen = false := by
  obtain ⟨_, hcases⟩ := step_cases E w w1 a hstep
  rcases hcases with ⟨fd, rfl, _, rfl⟩ | ⟨e1, rfl, _, rfl⟩ | ⟨j, now, rfl, hj, rfl⟩ |
    ⟨j, rfl, hj, _, rfl⟩ | ⟨j, l, rfl, hj, _, _, rfl⟩ | ⟨j, rfl, hj, _, _, rfl⟩ |
    ⟨j, e1, rfl, hj, rfl⟩ | ⟨j, conn, script, rfl, hj, rfl⟩ | ⟨j, e1, rfl, hj, rfl⟩ |
    ⟨rfl, _, rfl⟩ | ⟨rfl, _, _, rfl⟩ | ⟨r, rfl, _, rfl⟩ | ⟨e1, rfl, _, rfl⟩ |
    ⟨k, x, e1, rest, rfl, _, _, rfl⟩
  · simp [Action.isBind] at hbind
  · simp [World.listenerOpen]
  · simpa [World.listenerOpen, Server.recordStart] using hshut
  · simpa [World.listenerOpen] using hshut
  · simpa [World.listenerOpen] using hshut
  · simpa [World.listenerOpen] using hshut
  · simpa [World.listenerOpen] using hshut
  · simpa [World.listenerOpen] using hshut
  · simpa [World.listenerOpen] using hshut
  · simpa [World.listenerOpen] using hshut
  · simpa [World.listenerOpen] using hshut
  · cases hln : w.srv.ln <;> simp [World.listenerOpen, Server.closeListener, hln]
  · simpa [World.listenerOpen] using hshut
  · simpa [World.listenerOpen] using hshut

theorem run_keeps_listener_shut {H P : Type} (E : GoError) (acts : List (Action H)) :
    ∀ (w w1 : World H P), w.listenerOpen = false → (∀ a ∈ acts, a.isBind = false) →
      run E w acts = some w1 → w1.listenerOpen = false := by
  induction acts with
  | nil =>
    intro w w1 hshut _ hrun
    simp only [run, Option.some.injEq] at hrun
    rw [← hrun]; exact hshut
  | cons a rest ih =>
    intro w w1 hshut hb hrun
    simp only [run] at hrun
    cases hs : step E w a with
    | none => rw [hs] at hrun; cases hrun
    | some w2 =>
      rw [hs] at hrun
      exact ih w2 w1 (step_keeps_listener_shut E w w2 a hshut (hb a (List.mem_cons_self _ _)) hs)
        (fun b hb1 => hb b (List.mem_cons_of_mem _ hb1)) hrun

/-- A listener that is open after a step that found none open was installed by
that step, a call of `ListenAndServe` whose bind succeeded. -/
theorem step_opens_only_by_bind {H P : Type} (E : GoError) (w w1 : World H P) (a : Action H)
    (hshut : w.listenerOpen = false) (hstep : step E w a = some w1)
    (hopen : w1.listenerOpen = true) :
    ∃ fd, a = .lasCall (.ok fd) ∧ w1.srv.ln = some ⟨fd, false⟩ := by
  cases hb : a.isBind with
  | false =>
    rw [step_keeps_listener_shut E w w1 a hshut hb hstep] at hopen
    cases hopen
  | true =>
    obtain ⟨_, hcases⟩ := step_cases E w w1 a hstep
    rcases hcases with ⟨fd, rfl, _, rfl⟩ | ⟨e1, rfl, _, rfl⟩ | ⟨j, now, rfl, hj, rfl⟩ |
      ⟨j, rfl, hj, _, rfl⟩ | ⟨j, l, rfl, hj, _, _, rfl⟩ | ⟨j, rfl, hj, _, _, rfl⟩ |
      ⟨j, e1, rfl, hj, rfl⟩ | ⟨j, conn, script, rfl, hj, rfl⟩ | ⟨j, e1, rfl, hj, rfl⟩ |
      ⟨rfl, _, rfl⟩ | ⟨rfl, _, _, rfl⟩ | ⟨r, rfl, _, rfl⟩ | ⟨e1, rfl, _, rfl⟩ |
      ⟨k, x, e1, rest, rfl, _, _, rfl⟩
    all_goals try (simp [Action.isBind] at hb; done)
    exact ⟨fd, rfl, rfl⟩

/-- C10, amended: once the listener has been closed, whatever calls of
`ListenAndServe` and `Stop` follow and however they overlap, no step other than
a new call of `ListenAndServe` whose bind succeeds leaves the server with an
open listener: `Stop`, the stop check, `Accept`, a failed bind, the returns and
the sessions never re-open it, and a listener found open again is the fresh one
such a call installed; such a call can be made whenever `mu` is free, also while
earlier calls still serve. -/
theorem closed_listener_reopened_only_by_bind {H P : Type} (E : GoError) (w : World H P)
    (hclosed : w.listenerClosed = true) :
    w.listenerOpen = false ∧
    (∀ acts w1, (∀ a ∈ acts, a.isBind = false) → run E w acts = some w1 →
      w1.listenerOpen = false) ∧
    (∀ a w1, step E w a = some w1 → w1.listenerOpen = true →
      ∃ fd, a = .lasCall (.ok fd) ∧ w1.srv.ln = some ⟨fd, false⟩) ∧
    (∀ fd, w.crashed = false → w.stp = .idle →
      ∃ w1, step E w (.lasCall (.ok fd)) = some w1 ∧ w1.listenerOpen = true ∧
        w1.srv.ln = some ⟨fd, false⟩ ∧ w1.las = w.las ++ [.bound]) := by
  have hshut : w.listenerOpen = false := by
    unfold World.listenerClosed at hclosed
    unfold World.listenerOpen
    cases hln : w.srv.ln with
    | none => rfl
    | some l => rw [hln] at hclosed; simp at hclosed; simp [hclosed]
  refine ⟨hshut, fun acts w1 hb hrun => run_keeps_listener_shut E acts w w1 hshut hb hrun,
    fun a w1 hstep hopen => step_opens_only_by_bind E w w1 a hshut hstep hopen, ?_⟩
  intro fd hc hi
  exact ⟨{ w with srv := { w.srv with ln := some { fd := fd, closed := false } },
                  las := w.las ++ [.bound] },
    by simp [step, stepLive, hc, hi, Server.listen], rfl, rfl, rfl⟩

/-- Witness of C10 amended: a stopped server whose first call still has to
return; a further `Stop` and a failed bind leave the listener shut. -/
theorem closed_listener_reopened_only_by_bind_witness :
    ∃ w1, run ⟨0, "read"⟩
      ({ srv := { New "a" (fun _ => (0 : Nat)) () with ln := some ⟨3, true⟩ },
         las := [.returning none], stp := .idle, sessions := [], accepts := 1, rets := [],
         crashed := false } : World Nat Unit)
      [.stopCall, .stopSend, .stopClose (some ⟨9, "closed"⟩), .stopReturn,
        .lasCall (.error ⟨8, "address in use"⟩), .lasReturn 0] = some w1 ∧
      w1.listenerOpen = false :=
  ⟨_, rfl, (closed_listener_reopened_only_by_bind ⟨0, "read"⟩
      ({ srv := { New "a" (fun _ => (0 : Nat)) () with ln := some ⟨3, true⟩ },
         las := [.returning none], stp := .idle, sessions := [], accepts := 1, rets := [],
         crashed := false } : World Nat Unit)
      rfl).2.1
      [.stopCall, .stopSend, .stopClose (some ⟨9, "closed"⟩), .stopReturn,
        .lasCall (.error ⟨8, "address in use"⟩), .lasReturn 0]
      _ (by simp [Action.isBind]) rfl⟩


/-! ## Sessions and the counter -/

theorem countP_set_get {α : Type} (p : α → Bool) :
    ∀ (l : List α) (i : Nat) (a b : α), l[i]? = some a →
      (l.set i b).countP p + (if p a then 1 else 0) = l.countP p + (if p b then 1 else 0)
  | [], i, a, b, h => by simp at h
  | c :: cs, 0, a, b, h => by
    simp at h
    subst h
    simp only [List.set_cons_zero, List.countP_cons]
    omega
  | c :: cs, i + 1, a, b, h => by
    have ih := countP_set_get p cs i a b (by simpa using h)
    simp only [List.set_cons_succ, List.countP_cons]
    omega

theorem clientIter_no_counter {H : Type} (E : GoError) (router : String → H) (r : Round H) :
    ∀ e ∈ (clientIter E router r).1, e.isInc = false ∧ e.isDec = false := by
  rcases clientIter_cases E router r with ⟨_, _, h⟩ | ⟨err, _, _, _, h⟩ | ⟨cmd, b, err, _, _, _, h⟩ |
    ⟨cmd, reply, _, _, _, h⟩
  · rw [h]; simp [Event.isInc, Event.isDec]
  · rw [h]; cases r.sendErr err.msg <;> simp [closeAfter, Event.isInc, Event.isDec]
  · rw [h]; cases r.sendErr err.msg <;> simp [closeAfter, Event.isInc, Event.isDec]
  · rw [h]; cases r.sendReply reply <;> simp [closeAfter, Event.isInc, Event.isDec]

theorem clientBody_no_counter {H : Type} (E : GoError) (router : String → H)
    (script : List (Round H)) :
    ∀ e ∈ (clientBody E router script).trace, e.isInc = false ∧ e.isDec = false := by
  induction script with
  | nil => simp [clientBody]
  | cons r rest ih =>
    cases hcont : (clientIter E router r).2 with
    | true =>
      rw [clientBody_cons_continue E router r rest hcont]
      intro e he
      rcases List.mem_append.1 he with h | h
      · exact clientIter_no_counter E router r e h
      · exact ih e h
    | false =>
      rw [clientBody_cons_exit E router r rest hcont]
      exact clientIter_no_counter E router r

/-- The pass returns exactly on one of the four return paths of the loop: the
read error, a failed error reply to another decode error, a failed error reply
to a handler error, a failed success reply. -/
theorem clientIter_returns_iff {H : Type} (E : GoError) (router : String → H) (r : Round H) :
    (clientIter E router r).2 = false ↔
      (r.parseCmd = .error E ∨
       (∃ err, r.parseCmd = .error err ∧ err ≠ E ∧ (r.sendErr err.msg).isSome = true) ∨
       (∃ cmd b err, r.parseCmd = .ok cmd ∧ r.exec (router cmd.Name) cmd = (b, some err) ∧
          (r.sendErr err.msg).isSome = true) ∨
       (∃ cmd reply, r.parseCmd = .ok cmd ∧ r.exec (router cmd.Name) cmd = (reply, none) ∧
          (r.sendReply reply).isSome = true)) := by
  rcases clientIter_cases E router r with ⟨hp, _, h⟩ | ⟨err, hp, hne, _, h⟩ |
    ⟨cmd, b, err, hp, hx, _, h⟩ | ⟨cmd, reply, hp, hx, _, h⟩
  · rw [h]
    simp [hp]
  · rw [h]
    constructor
    · intro hf
      refine Or.inr (Or.inl ⟨err, hp, hne, ?_⟩)
      cases hs : r.sendErr err.msg with
      | none => rw [hs] at hf; simp at hf
      | some g => rfl
    · rintro (h1 | ⟨err1, h1, _, hs⟩ | ⟨cmd, b, err1, h1, _⟩ | ⟨cmd, reply, h1, _⟩)
      · rw [hp] at h1
        cases h1
        exact absurd rfl hne
      · rw [hp] at h1
        cases h1
        cases hs1 : r.sendErr err.msg with
        | none => rw [hs1] at hs; simp at hs
        | some g => rfl
      · rw [hp] at h1; cases h1
      · rw [hp] at h1; cases h1
  · rw [h]
    constructor
    · intro hf
      refine Or.inr (Or.inr (Or.inl ⟨cmd, b, err, hp, hx, ?_⟩))
      cases hs : r.sendErr err.msg with
      | none => rw [hs] at hf; simp at hf
      | some g => rfl
    · rintro (h1 | ⟨err1, h1, _⟩ | ⟨cmd1, b1, err1, h1, hx1, hs⟩ | ⟨cmd1, reply, h1, hx1, _⟩)
      · rw [hp] at h1; cases h1
      · rw [hp] at h1; cases h1
      · rw [hp] at h1
        cases h1
        rw [hx] at hx1
        cases hx1
        cases hs1 : r.sendErr err.msg with
        | none => rw [hs1] at hs; simp at hs
        | some g => rfl
      · rw [hp] at h1
        cases h1
        rw [hx] at hx1
        cases hx1
  · rw [h]
    constructor
    · intro hf
      refine Or.inr (Or.inr (Or.inr ⟨cmd, reply, hp, hx, ?_⟩))
      cases hs : r.sendReply reply with
      | none => rw [hs] at hf; simp at hf
      | some g => rfl
    · rintro (h1 | ⟨err1, h1, _⟩ | ⟨cmd1, b1, err1, h1, hx1, _⟩ | ⟨cmd1, reply1, h1, hx1, hs⟩)
      · rw [hp] at h1; cases h1
      · rw [hp] at h1; cases h1
      · rw [hp] at h1
        cases h1
        rw [hx] at hx1
        cases hx1
      · rw [hp] at h1
        cases h1
        rw [hx] at hx1
        cases hx1
        cases hs1 : r.sendReply reply with
        | none => rw [hs1] at hs; simp at hs
        | some g => rfl

/-- A script whose passes all go round again leaves the loop running. -/
theorem clientBody_running {H : Type} (E : GoError) (router : String → H)
    (script : List (Round H)) (hall : ∀ p ∈ script, (clientIter E router p).2 = true) :
    clientBody E router script =
      { trace := (script.map (fun p => (clientIter E router p).1)).flatten, exited := false } := by
  induction script with
  | nil => simp [clientBody]
  | cons r rest ih =>
    rw [clientBody_cons_continue E router r rest (hall r (List.mem_cons_self _ _)),
      ih (fun p hp => hall p (List.mem_cons_of_mem _ hp))]
    simp

/-- A script in which pass `r` is the first to return ends the loop there. -/
theorem clientBody_returning {H : Type} (E : GoError) (router : String → H)
    (pre : List (Round H)) (r : Round H) (rest : List (Round H))
    (hpre : ∀ p ∈ pre, (clientIter E router p).2 = true)
    (hr : (clientIter E router r).2 = false) :
    clientBody E router (pre ++ r :: rest) =
      { trace := (pre.map (fun p => (clientIter E router p).1)).flatten ++
          (clientIter E router r).1, exited := true } := by
  induction pre with
  | nil => simp [clientBody_cons_exit E router r rest hr]
  | cons q qs ih =>
    rw [List.cons_append,
      clientBody_cons_continue E router q _ (hpre q (List.mem_cons_self _ _)),
      ih (fun p hp => hpre p (List.mem_cons_of_mem _ hp))]
    simp

/-- Shape of a run of `clientLoop`: the increment, the calls of the loop (none
of which touches the counter), and the decrement when the loop has returned. -/
theorem clientLoop_shape {H P : Type} (E : GoError) (s : Server H P) (script : List (Round H)) :
    (∀ e ∈ (clientBody E s.Router script).trace, e.isInc = false ∧ e.isDec = false) ∧
    (clientLoop E s script).exited = (clientBody E s.Router script).exited ∧
    (clientLoop E s script).trace =
      .activeInc :: ((clientBody E s.Router script).trace ++
        if (clientBody E s.Router script).exited then [.activeDec] else []) :=
  ⟨clientBody_no_counter E s.Router script, rfl, rfl⟩

/-- Where the next call `e` of a session stands in its run. -/
theorem session_position {H : Type} (done rest B : List (Event H)) (e : Event H) (ret : Bool)
    (hB : ∀ x ∈ B, x.isInc = false ∧ x.isDec = false)
    (h : done ++ e :: rest = .activeInc :: (B ++ if ret then [.activeDec] else [])) :
    (done = [] → e = .activeInc ∧ (ret = true → rest ≠ [])) ∧
    (done ≠ [] → ret = true → rest = [] → e = .activeDec) ∧
    (done ≠ [] → ¬ (ret = true ∧ rest = []) → e.isInc = false ∧ e.isDec = false) := by
  cases done with
  | nil =>
    simp only [List.nil_append, List.cons.injEq] at h
    refine ⟨fun _ => ⟨h.1, ?_⟩, fun hne => absurd rfl hne, fun hne => absurd rfl hne⟩
    intro hret hrest
    have h2 := h.2
    rw [hrest, hret] at h2
    simp at h2
  | cons d ds =>
    simp only [List.cons_append, List.cons.injEq] at h
    obtain ⟨_, ht⟩ := h
    refine ⟨fun hnil => (by cases hnil), ?_, ?_⟩
    · intro _ hret hrest
      rw [hret, hrest] at ht
      simp only [if_true] at ht
      have := List.append_inj' ht rfl
      simpa using this.2
    · intro _ hnot
      have hmem : e ∈ B := by
        cases ret with
        | false =>
          simp only [Bool.false_eq_true, if_false, List.append_nil] at ht
          rw [← ht]
          simp
        | true =>
          have hrest : rest ≠ [] := fun hr => hnot ⟨rfl, hr⟩
          simp only [if_true] at ht
          rcases List.append_eq_append_iff.1 ht with ⟨a1, hB1, ha1⟩ | ⟨c1, _, hc⟩
          · cases a1 with
            | nil =>
              simp at ha1
              exact absurd ha1.2 hrest
            | cons y ys =>
              simp only [List.cons_append, List.cons.injEq] at ha1
              rw [hB1, ha1.1]
              simp
          · have hlen := congrArg List.length hc
            simp at hlen
            have : rest.length = 0 := by omega
            exact absurd (List.length_eq_zero.1 this) hrest
      exact hB e hmem

/-- How one call of a session changes whether it is live, and which call it
is. -/
theorem session_step_live {H P : Type} (E : GoError) (s0 : Server H P) (x : Session H)
    (e : Event H) (rest : List (Event H))
    (hx : ∃ script, x.done ++ x.todo = (clientLoop E s0 script).trace ∧
      x.returns = (clientLoop E s0 script).exited)
    (ht : x.todo = e :: rest) :
    (x.live = false ∧ Session.live { x with done := x.done ++ [e], todo := rest } = true ∧
      e = .activeInc) ∨
    (x.live = true ∧ Session.live { x with done := x.done ++ [e], todo := rest } = false ∧
      e = .activeDec) ∨
    (Session.live { x with done := x.done ++ [e], todo := rest } = x.live ∧
      e.isInc = false ∧ e.isDec = false) := by
  obtain ⟨script, hs, hret⟩ := hx
  obtain ⟨hB, hex, hshape⟩ := clientLoop_shape E s0 script
  rw [hshape, ht, ← hex, ← hret] at hs
  obtain ⟨p1, p2, p3⟩ := session_position x.done rest _ e x.returns hB hs
  by_cases hd : x.done = []
  · obtain ⟨he, hrest⟩ := p1 hd
    refine Or.inl ⟨by simp [Session.live, Session.entered, hd], ?_, he⟩
    cases hr : x.returns with
    | false => simp [Session.live, Session.entered, Session.exited, hr]
    | true =>
      have := hrest hr
      simp [Session.live, Session.entered, Session.exited, hr, this]
  · have hlive : x.live = true := by
      simp [Session.live, Session.entered, Session.exited, hd, ht]
    by_cases hlast : x.returns = true ∧ rest = []
    · refine Or.inr (Or.inl ⟨hlive, ?_, p2 hd hlast.1 hlast.2⟩)
      simp [Session.live, Session.entered, Session.exited, hlast.1, hlast.2]
    · refine Or.inr (Or.inr ⟨?_, p3 hd hlast⟩)
      rw [hlive]
      cases hr : x.returns with
      | false => simp [Session.live, Session.entered, Session.exited, hr]
      | true =>
        have : rest ≠ [] := fun h => hlast ⟨hr, h⟩
        simp [Session.live, Session.entered, Session.exited, hr, this]

theorem Event.onStats_count {H : Type} (e : Event H) (st : Stats) :
    (e = .activeInc → (e.onStats st).ActiveClients = (st.ActiveClients + 1) % 2 ^ 64) ∧
    (e = .activeDec → (e.onStats st).ActiveClients = (st.ActiveClients + 2 ^ 64 - 1) % 2 ^ 64) ∧
    (e.isInc = false → e.isDec = false → e.onStats st = st) := by
  cases e <;> simp [Event.isInc, Event.isDec, Event.onStats, Stats.enter, Stats.leave]

theorem uint64_inc_mod (n : Nat) : (n % 2 ^ 64 + 1) % 2 ^ 64 = (n + 1) % 2 ^ 64 := by
  omega

theorem uint64_dec_mod (n : Nat) : ((n + 1) % 2 ^ 64 + 2 ^ 64 - 1) % 2 ^ 64 = n % 2 ^ 64 := by
  omega

theorem clientLoop_router {H P : Type} (E : GoError) (s s0 : Server H P)
    (h : s.Router = s0.Router) (script : List (Round H)) :
    clientLoop E s script = clientLoop E s0 script := by
  simp [clientLoop, h]


/-- Every step keeps the invariant and moves the number of live sessions by at
most one. -/
theorem step_inv {H P : Type} (E : GoError) (s0 : Server H P) (w w1 : World H P) (a : Action H)
    (hinv : w.inv E s0) (hstep : step E w a = some w1) :
    w1.inv E s0 ∧
      (w1.liveCount = w.liveCount + 1 ∨ w1.liveCount + 1 = w.liveCount ∨
        w1.liveCount = w.liveCount) := by
  obtain ⟨hr, hwf, hcnt⟩ := hinv
  obtain ⟨_, hcases⟩ := step_cases E w w1 a hstep
  rcases hcases with ⟨fd, rfl, _, rfl⟩ | ⟨e1, rfl, _, rfl⟩ | ⟨j, now, rfl, hj, rfl⟩ |
    ⟨j, rfl, hj, _, rfl⟩ | ⟨j, l, rfl, hj, _, _, rfl⟩ | ⟨j, rfl, hj, _, _, rfl⟩ |
    ⟨j, e1, rfl, hj, rfl⟩ | ⟨j, conn, script, rfl, hj, rfl⟩ | ⟨j, e1, rfl, hj, rfl⟩ |
    ⟨rfl, _, rfl⟩ | ⟨rfl, _, _, rfl⟩ | ⟨r, rfl, _, rfl⟩ | ⟨e1, rfl, _, rfl⟩ |
    ⟨i, x, e1, rest, rfl, hget, htodo, rfl⟩
  · exact ⟨⟨hr, hwf, hcnt⟩, Or.inr (Or.inr rfl)⟩
  · exact ⟨⟨hr, hwf, hcnt⟩, Or.inr (Or.inr rfl)⟩
  · exact ⟨⟨hr, hwf, hcnt⟩, Or.inr (Or.inr rfl)⟩
  · exact ⟨⟨hr, hwf, hcnt⟩, Or.inr (Or.inr rfl)⟩
  · exact ⟨⟨hr, hwf, hcnt⟩, Or.inr (Or.inr rfl)⟩
  · exact ⟨⟨hr, hwf, hcnt⟩, Or.inr (Or.inr rfl)⟩
  · exact ⟨⟨hr, hwf, hcnt⟩, Or.inr (Or.inr rfl)⟩
  · have hlive : List.countP Session.live (w.sessions ++
          [{ conn := conn, done := [], todo := (clientLoop E w.srv script).trace,
             returns := (clientLoop E w.srv script).exited }]) =
        w.liveCount := by
      simp [World.liveCount, List.countP_append, Session.live, Session.entered]
    refine ⟨⟨hr, ?_, ?_⟩, Or.inr (Or.inr hlive)⟩
    · intro y hy
      rcases List.mem_append.1 hy with h | h
      · exact hwf y h
      · refine ⟨script, ?_⟩
        simp only [List.mem_singleton] at h
        subst h
        simp [clientLoop_router E w.srv s0 hr script]
    · show w.srv.stats.ActiveClients = (List.countP Session.live _) % 2 ^ 64
      rw [hlive]
      exact hcnt
  · exact ⟨⟨hr, hwf, hcnt⟩, Or.inr (Or.inr rfl)⟩
  · exact ⟨⟨hr, hwf, hcnt⟩, Or.inr (Or.inr rfl)⟩
  · exact ⟨⟨hr, hwf, hcnt⟩, Or.inr (Or.inr rfl)⟩
  · obtain ⟨h1, _, _, h4, _⟩ := Server.closeListener_frame w.srv r
    refine ⟨⟨h1.trans hr, hwf, ?_⟩, Or.inr (Or.inr rfl)⟩
    show (w.srv.closeListener r).1.stats.ActiveClients = w.liveCount % 2 ^ 64
    rw [h4]
    exact hcnt
  · exact ⟨⟨hr, hwf, hcnt⟩, Or.inr (Or.inr rfl)⟩
  · have hxm : x ∈ w.sessions := List.getElem?_mem hget
    have hx := hwf x hxm
    obtain ⟨sinc, sdec, soth⟩ := Event.onStats_count e1 w.srv.stats
    have hcount := countP_set_get Session.live w.sessions i x
      { x with done := x.done ++ [e1], todo := rest } hget
    have hwf1 : ∀ y ∈ w.sessions.set i { x with done := x.done ++ [e1], todo := rest },
        ∃ script, y.done ++ y.todo = (clientLoop E s0 script).trace ∧
          y.returns = (clientLoop E s0 script).exited := by
      intro y hy
      rcases List.mem_or_eq_of_mem_set hy with h | h
      · exact hwf y h
      · obtain ⟨script, hs, hret⟩ := hx
        refine ⟨script, ?_, ?_⟩
        · rw [h, ← hs, htodo]
          simp
        · rw [h]
          exact hret
    rcases session_step_live E s0 x e1 rest hx htodo with ⟨hb, ha, he⟩ | ⟨hb, ha, he⟩ |
      ⟨hsame, hi1, hd1⟩
    · rw [hb, ha] at hcount
      simp only [if_true, Bool.false_eq_true, if_false, Nat.add_zero] at hcount
      refine ⟨⟨hr, hwf1, ?_⟩, Or.inl hcount⟩
      show (e1.onStats w.srv.stats).ActiveClients = _
      rw [sinc he, hcnt]
      show _ = (List.countP Session.live _) % 2 ^ 64
      rw [hcount]
      exact uint64_inc_mod _
    · rw [hb, ha] at hcount
      simp only [if_true, Bool.false_eq_true, if_false, Nat.add_zero] at hcount
      refine ⟨⟨hr, hwf1, ?_⟩, Or.inr (Or.inl hcount)⟩
      show (e1.onStats w.srv.stats).ActiveClients = _
      rw [sdec he, hcnt]
      show _ = (List.countP Session.live _) % 2 ^ 64
      have hL : w.liveCount = List.countP Session.live
          (w.sessions.set i { x with done := x.done ++ [e1], todo := rest }) + 1 := hcount.symm
      rw [hL]
      exact uint64_dec_mod _
    · rw [hsame] at hcount
      have hsame1 : List.countP Session.live
          (w.sessions.set i { x with done := x.done ++ [e1], todo := rest }) =
          w.liveCount := by
        have := hcount
        simp only [World.liveCount]
        omega
      refine ⟨⟨hr, hwf1, ?_⟩, Or.inr (Or.inr hsame1)⟩
      show (e1.onStats w.srv.stats).ActiveClients = _
      rw [soth hi1 hd1, hcnt]
      show _ = (List.countP Session.live _) % 2 ^ 64
      rw [hsame1]

theorem run_inv {H P : Type} (E : GoError) (s0 : Server H P) (acts : List (Action H)) :
    ∀ (w w1 : World H P), w.inv E s0 → run E w acts = some w1 → w1.inv E s0 := by
  induction acts with
  | nil =>
    intro w w1 hinv hrun
    simp only [run, Option.some.injEq] at hrun
    rw [← hrun]
    exact hinv
  | cons a rest ih =>
    intro w w1 hinv hrun
    simp only [run] at hrun
    cases hs : step E w a with
    | none => rw [hs] at hrun; cases hrun
    | some w2 =>
      rw [hs] at hrun
      exact ih w2 w1 (step_inv E s0 w w2 a hinv hs).1 hrun

theorem init_inv {H P : Type} (E : GoError) (addr : String) (router : String → H) (prot : P) :
    (World.init (New addr router prot)).inv E (New addr router prot) := by
  refine ⟨rfl, ?_, rfl⟩
  intro x hx
  simp [World.init] at hx

/-- C6: the counter of a new server is 0.  A run of `clientLoop` increments it
once, first of all; while the loop goes round it does nothing more to the
counter; and when a pass returns, on whichever of the four return paths (the
read error, a failed error reply to a decode error, a failed error reply to a
handler error, a failed success reply), the run ends with the calls of that
pass followed by one decrement.  In every world reached from a new server by
interleaving calls of `ListenAndServe`, calls of `Stop` and the calls of all
sessions, each session is part-way through such a run and the counter is the
number of sessions whose goroutine has entered `clientLoop` and whose function
has not yet returned (as a `uint64`, hence that very number as long as fewer
than `2 ^ 64` sessions are live); it is 0 when every session has returned, and
a step that enters or exits a session moves it by exactly one, an exit finding
it positive. -/
theorem active_clients_counts_live_sessions {H P : Type} (E : GoError) (addr : String)
    (router : String → H) (prot : P) (acts : List (Action H)) (w : World H P)
    (hrun : run E (World.init (New addr router prot)) acts = some w) :
    (New addr router prot).stats.ActiveClients = 0 ∧
    (∀ (s : Server H P) script, (∀ p ∈ script, (clientIter E s.Router p).2 = true) →
      clientLoop E s script =
        { trace := .activeInc :: (script.map (fun p => (clientIter E s.Router p).1)).flatten,
          exited := false }) ∧
    (∀ (s : Server H P) pre r rest, (∀ p ∈ pre, (clientIter E s.Router p).2 = true) →
      (clientIter E s.Router r).2 = false →
      clientLoop E s (pre ++ r :: rest) =
        { trace := .activeInc :: ((pre.map (fun p => (clientIter E s.Router p).1)).flatten ++
            (clientIter E s.Router r).1 ++ [.activeDec]),
          exited := true }) ∧
    (∀ (rt : String → H) (r : Round H),
      ((clientIter E rt r).2 = false ↔
        (r.parseCmd = .error E ∨
         (∃ err, r.parseCmd = .error err ∧ err ≠ E ∧ (r.sendErr err.msg).isSome = true) ∨
         (∃ cmd b err, r.parseCmd = .ok cmd ∧ r.exec (rt cmd.Name) cmd = (b, some err) ∧
            (r.sendErr err.msg).isSome = true) ∨
         (∃ cmd reply, r.parseCmd = .ok cmd ∧ r.exec (rt cmd.Name) cmd = (reply, none) ∧
            (r.sendReply reply).isSome = true))) ∧
      ∀ e ∈ (clientIter E rt r).1, e.isInc = false ∧ e.isDec = false) ∧
    (∀ x ∈ w.sessions, ∃ script,
      x.done ++ x.todo = (clientLoop E (New addr router prot) script).trace ∧
      x.returns = (clientLoop E (New addr router prot) script).exited) ∧
    w.srv.stats.ActiveClients = w.liveCount % 2 ^ 64 ∧
    (w.liveCount < 2 ^ 64 → w.srv.stats.ActiveClients = w.liveCount) ∧
    ((∀ x ∈ w.sessions, x.exited = true) → w.srv.stats.ActiveClients = 0) ∧
    (∀ a w1, step E w a = some w1 → w.liveCount < 2 ^ 64 → w1.liveCount < 2 ^ 64 →
      (w1.liveCount = w.liveCount + 1 ∧
        w1.srv.stats.ActiveClients = w.srv.stats.ActiveClients + 1) ∨
      (w1.liveCount + 1 = w.liveCount ∧ 0 < w.srv.stats.ActiveClients ∧
        w1.srv.stats.ActiveClients + 1 = w.srv.stats.ActiveClients) ∨
      (w1.liveCount = w.liveCount ∧
        w1.srv.stats.ActiveClients = w.srv.stats.ActiveClients)) := by
  have hinv := run_inv E (New addr router prot) acts _ w (init_inv E addr router prot) hrun
  obtain ⟨hrt, hwf, hcnt⟩ := hinv
  refine ⟨rfl, ?_, ?_, ?_, hwf, hcnt, ?_, ?_, ?_⟩
  · intro s script hall
    simp [clientLoop, clientBody_running E s.Router script hall]
  · intro s pre r rest hpre hr
    simp [clientLoop, clientBody_returning E s.Router pre r rest hpre hr]
  · intro rt r
    exact ⟨clientIter_returns_iff E rt r, clientIter_no_counter E rt r⟩
  · intro hlt
    rw [hcnt]
    exact Nat.mod_eq_of_lt hlt
  · intro hall
    have hzero : w.liveCount = 0 := by
      unfold World.liveCount
      rw [List.countP_eq_zero]
      intro x hx
      simp [Session.live, hall x hx]
    rw [hcnt, hzero]
    rfl
  · intro a w1 hstep hlt hlt1
    obtain ⟨⟨_, _, hcnt1⟩, htri⟩ :=
      step_inv E (New addr router prot) w w1 a ⟨hrt, hwf, hcnt⟩ hstep
    rw [Nat.mod_eq_of_lt hlt] at hcnt
    rw [Nat.mod_eq_of_lt hlt1] at hcnt1
    rcases htri with h | h | h
    · exact Or.inl ⟨h, by omega⟩
    · exact Or.inr (Or.inl ⟨h, by omega, by omega⟩)
    · exact Or.inr (Or.inr ⟨h, by omega⟩)

/-- Witness of C6: two clients are accepted and both enter; the read of the
first fails, it closes and returns; one session is live and the counter is 1. -/
theorem active_clients_counts_live_sessions_witness :
    ∃ w, run ⟨0, "read"⟩ (World.init (New "a" (fun _ => (0 : Nat)) ()))
        [.lasCall (.ok 3), .lasStart 0 100, .lasSelect 0,
          .lasAccept 0 (.ok (1, [⟨.error ⟨0, "read"⟩, fun _ _ => ([], none), fun _ => none,
            fun _ => none⟩])),
          .lasSelect 0, .lasAccept 0 (.ok (2, [])), .sessStep 0, .sessStep 1, .sessStep 0,
          .sessStep 0, .sessStep 0, .sessStep 0] = some w ∧
      w.sessions.map Session.exited = [true, false] ∧
      w.liveCount = 1 ∧ w.srv.stats.ActiveClients = 1 :=
  ⟨_, rfl, rfl, rfl,
    ((active_clients_counts_live_sessions ⟨0, "read"⟩ "a" (fun _ => (0 : Nat)) ()
      [.lasCall (.ok 3), .lasStart 0 100, .lasSelect 0,
        .lasAccept 0 (.ok (1, [⟨.error ⟨0, "read"⟩, fun _ _ => ([], none), fun _ => none,
          fun _ => none⟩])),
        .lasSelect 0, .lasAccept 0 (.ok (2, [])), .sessStep 0, .sessStep 1, .sessStep 0,
        .sessStep 0, .sessStep 0, .sessStep 0] _ rfl).2.2.2.2.2.2.1 (by decide)).trans rfl⟩

end Workq
